import Mathlib

/-!
# gen-patt: error pattern generation (src/eid/gen-patt.c)

A shallow embedding of the parameter checks, the windowed generation loops and
the convergence loop of `main`, and of the helpers `check_bellcore`,
`run_FER_generator_random` and `run_FER_generator_burst`.

Modelling conventions.

* `long` values are `Int` (no overflow is modelled).
* `double` values that hold a rate are exact rationals extended with the
  IEEE special values that a division by zero produces (`Dbl`).  The counters
  `generated` and `processed` are doubles that only ever hold integers (they
  are sums of `long` item counts), so they are `Int`; `(long) generated` is
  then the identity.
* The error insertion device, the save function selected by the output
  format and the output file come from other modules (eid.c, softbit.c,
  stdio); they are the fields of `Env`.
* `error_terminate (msg, code)` and `exit (code)` end the program with a
  status; loops carry an iteration budget and report `Halt.fuel` if it is
  ever exhausted.
-/

namespace GenPatt

/-! ## Constants -/

/-- Buffer size, `#define EID_BUFFER_LENGTH 256`. -/
def EID_BUFFER_LENGTH : Int := 256

/-- Soft bit '0' (no disturbance), 0x007F. -/
def G192_ZERO : Int := 0x007F

/-- Soft bit '1' (bit error), 0x0081. -/
def G192_ONE : Int := 0x0081

/-- Good frame flag, 0x6B21. -/
def G192_SYNC : Int := 0x6B21

/-- Erased frame flag, 0x6B20. -/
def G192_FER : Int := 0x6B20

/-! ## Doubles -/

/-- A double: an exact rational, or one of the values a division by zero gives. -/
inductive Dbl where
  | fin (q : ℚ)
  | pinf
  | ninf
  | nan
deriving DecidableEq

namespace Dbl

/-- Division `a / b` of two finite doubles. -/
def div (a b : ℚ) : Dbl :=
  if b = 0 then (if a = 0 then nan else if 0 < a then pinf else ninf) else fin (a / b)

/-- Subtraction `a - b`. -/
def sub : Dbl → Dbl → Dbl
  | fin a, fin b => fin (a - b)
  | nan, _ => nan
  | _, nan => nan
  | pinf, pinf => nan
  | ninf, ninf => nan
  | pinf, _ => pinf
  | ninf, _ => ninf
  | fin _, pinf => ninf
  | fin _, ninf => pinf

/-- Absolute value `fabs (a)`. -/
def fabs : Dbl → Dbl
  | fin a => fin |a|
  | pinf => pinf
  | ninf => pinf
  | nan => nan

/-- Comparison `a < b`; false when either side is NaN. -/
def lt : Dbl → Dbl → Bool
  | fin a, fin b => decide (a < b)
  | nan, _ => false
  | _, nan => false
  | ninf, ninf => false
  | ninf, _ => true
  | _, ninf => false
  | pinf, _ => false
  | fin _, pinf => true

/-- Comparison `a == b`; false when either side is NaN. -/
def eq : Dbl → Dbl → Bool
  | fin a, fin b => decide (a = b)
  | pinf, pinf => true
  | ninf, ninf => true
  | _, _ => false

/-- Comparison `a <= b`; false when either side is NaN. -/
def le (a b : Dbl) : Bool := lt a b || eq a b

end Dbl

/-- The cast `(long) x` of a double: truncation toward zero. -/
def to_long (x : ℚ) : Int := if 0 ≤ x then ⌊x⌋ else ⌈x⌉

/-! ## Program state -/

/-- Processing mode: 'R' random bit errors, 'F' random frame erasures,
'B' burst frame erasures. -/
inductive Mode where
  | R
  | F
  | B
deriving DecidableEq

/-- Command line parameters of `main` (options and positional parameters). -/
structure Params where
  mode : Mode
  number_of_frames : Int
  start_frame : Int
  ber_rate : ℚ
  tolerance : Dbl
  max_iteraction : Int
  reset : Bool
  tailstat : Bool
  index : Int

/-- The collaborators of `main` that live in other modules: the error
insertion device (state `G`), the save function chosen by the output format
and the output file (state `F`). -/
structure Env (G F : Type) where
  /-- The call `BER_generator (BEReid, k, error_pat)`: new state, filled buffer, number of
  disturbed bits. -/
  BER_generator : G → Int → List Int → G × List Int × ℚ
  /-- The call `FER_generator_random (state)`: new state and the erasure flag. -/
  FER_generator_random : G → G × Int
  /-- The call `FER_generator_burst (state)`: new state and the erasure flag. -/
  FER_generator_burst : G → G × Int
  /-- The call `reset_burst_eid (burst_eid)`. -/
  reset_burst_eid : G → G
  /-- The call `save_data (patt, n, file)`: the file afterwards and the item count
  returned (negative on failure). -/
  save_data : List Int → Int → F → F × Int
  /-- The call `fseek (out_file_ptr, 0l, 0)`. -/
  fseek : F → F

/-- The variables of `main` that the generation loops read and write. -/
structure Vars (G F : Type) where
  eid : G
  out_file_ptr : F
  error_pat : List Int
  ber1 : ℚ
  disturbed : ℚ
  processed : Int
  generated : Int
  percentage_proc : Dbl
  percentage_gen : Dbl
  percentage_used : Dbl
  iteraction : Int

/-- How a run ends early: the program exits with a status (the variables are
those at the time of the exit), or the iteration budget of the model ran out. -/
inductive Halt (S : Type) where
  | exit (status : Int) (state : S)
  | fuel

/-! ## Auxiliary functions -/

/-- The function `char check_bellcore (long index)`. -/
def check_bellcore (index : Int) : Int :=
  if index ≥ 1 ∧ index ≤ 60 then 1 else 0

/-- The loop `for (count = i = 0; i < n; i++)` shared by the two
`run_FER_generator_*` functions; `none` when the budget is exhausted. -/
def run_FER_loop {G : Type} (gen : G → G × Int) (n : Int) :
    Nat → Int → Int → List Int → G → Option (Int × List Int × G)
  | 0, i, count, patt, state => if i < n then none else some (count, patt, state)
  | fuel + 1, i, count, patt, state =>
    if i < n then
      let fer := (gen state).2
      run_FER_loop gen n fuel (i + 1) (if fer ≠ 0 then count + 1 else count)
        (patt.set i.toNat (if fer ≠ 0 then G192_FER else G192_SYNC)) (gen state).1
    else some (count, patt, state)

/-- The function `long run_FER_generator_random (short *patt, SCD_EID * state, long n)`:
the count returned, the buffer and the state afterwards. -/
def run_FER_generator_random {G F : Type} (env : Env G F) (patt : List Int) (state : G)
    (n : Int) : Option (Int × List Int × G) :=
  run_FER_loop env.FER_generator_random n n.toNat 0 0 patt state

/-- The function `long run_FER_generator_burst (short *patt, BURST_EID * state, long n)`. -/
def run_FER_generator_burst {G F : Type} (env : Env G F) (patt : List Int) (state : G)
    (n : Int) : Option (Int × List Int × G) :=
  run_FER_loop env.FER_generator_burst n n.toNat 0 0 patt state

/-! ## Parameter checks of `main` -/

/-- The `case 'B'` of the first `switch (mode)`: range check, Bellcore index,
quantisation of the rate (with its warning) and `check_bellcore`.
Result: the rate afterwards, the index, whether the warning was printed. -/
def bellcore_rate (ber_rate : ℚ) : Except Int (ℚ × Int × Bool) :=
  if ber_rate < 5 / 1000 ∨ ber_rate > 30 / 100 then .error 5
  else
    let index := to_long (200 * ber_rate + 1 / 2)
    let quantized := decide ((index : ℚ) / 200 ≠ ber_rate)
    let ber_rate1 := if (index : ℚ) / 200 ≠ ber_rate then (index : ℚ) / 200 else ber_rate
    if check_bellcore index = 0 then .error 5
    else .ok (ber_rate1, index, quantized)

/-- The value `min_tol` of the tolerance consistency check. -/
def min_tol (number_of_frames start_frame : Int) (ber_rate : ℚ) : Dbl :=
  let m : ℚ := ((⌊((number_of_frames - start_frame : Int) : ℚ) * ber_rate + 1 / 2⌋ : Int) : ℚ)
  Dbl.fabs (Dbl.sub (Dbl.div m ((number_of_frames - start_frame : Int) : ℚ)) (Dbl.fin ber_rate))

/-- The block `if (tolerance >= 0) { ... }`: the tolerance afterwards, or
`exit (20)`. -/
def check_tolerance (number_of_frames start_frame : Int) (ber_rate : ℚ) (tolerance : Dbl) :
    Except Int Dbl :=
  if Dbl.le (Dbl.fin 0) tolerance then
    if Dbl.eq tolerance (Dbl.fin 0) then .ok (min_tol number_of_frames start_frame ber_rate)
    else if Dbl.lt tolerance (min_tol number_of_frames start_frame ber_rate) then .error 20
    else .ok tolerance
  else .ok tolerance

/-- The checks of `main` from the first `switch (mode)` down to
`start_frame--`: an exit status, or the parameters as the generation sees
them (rate quantised, tolerance settled, `start_frame` zero-based) together
with the quantisation warning flag. -/
def main_checks (p : Params) : Except Int (Params × Bool) :=
  match (if p.mode = Mode.B then bellcore_rate p.ber_rate
         else .ok (p.ber_rate, p.index, false)) with
  | .error status => .error status
  | .ok (ber_rate, index, quantized) =>
    if p.start_frame > p.number_of_frames then .error 1
    else if p.start_frame = 0 then .error 9
    else if ber_rate < 0 then .error 5
    else
      match check_tolerance p.number_of_frames p.start_frame ber_rate p.tolerance with
      | .error status => .error status
      | .ok tolerance =>
        .ok ({ p with ber_rate := ber_rate, index := index, tolerance := tolerance,
                      start_frame := p.start_frame - 1 }, quantized)

/-! ## Generation loops of `main` -/

/-- The array `frame_okay` after its initialisation. -/
def frame_okay (mode : Mode) : List Int :=
  List.replicate 256 (if mode = Mode.R then G192_ZERO else G192_SYNC)

/-- Mode 'R': `for (i = 0; i < start_frame; i += EID_BUFFER_LENGTH)`. -/
def skip_loop_R {G F : Type} (env : Env G F) (p : Params) :
    Nat → Int → Vars G F → Except (Halt (Vars G F)) (Vars G F)
  | 0, i, v => if i < p.start_frame then .error .fuel else .ok v
  | fuel + 1, i, v =>
    if i < p.start_frame then
      let k := if i + EID_BUFFER_LENGTH > p.start_frame
        then Int.tmod p.start_frame EID_BUFFER_LENGTH else EID_BUFFER_LENGTH
      let saved := env.save_data v.error_pat k v.out_file_ptr
      let v1 := { v with out_file_ptr := saved.1 }
      if saved.2 < 0 then .error (.exit 8 v1)
      else skip_loop_R env p fuel (i + EID_BUFFER_LENGTH)
        { v1 with generated := v1.generated + saved.2 }
    else .ok v

/-- Mode 'R': `for (i = start_frame; i < number_of_frames; i += EID_BUFFER_LENGTH)`. -/
def active_loop_R {G F : Type} (env : Env G F) (p : Params) :
    Nat → Int → Vars G F → Except (Halt (Vars G F)) (Vars G F)
  | 0, i, v => if i < p.number_of_frames then .error .fuel else .ok v
  | fuel + 1, i, v =>
    if i < p.number_of_frames then
      let k := if i + EID_BUFFER_LENGTH > p.number_of_frames
        then p.number_of_frames - v.generated else EID_BUFFER_LENGTH
      let made := env.BER_generator v.eid k v.error_pat
      let saved := env.save_data made.2.1 k v.out_file_ptr
      let v1 := { v with eid := made.1, error_pat := made.2.1, ber1 := made.2.2,
                         out_file_ptr := saved.1 }
      if saved.2 < 0 then .error (.exit 8 v1)
      else active_loop_R env p fuel (i + EID_BUFFER_LENGTH)
        { v1 with disturbed := v1.disturbed + made.2.2,
                  processed := v1.processed + saved.2,
                  generated := v1.generated + saved.2 }
    else .ok v

/-- Modes 'F' and 'B': `for (i = 0; i < start_frame; i += EID_BUFFER_LENGTH)`;
the item count is added without a check. -/
def skip_loop_FB {G F : Type} (env : Env G F) (p : Params) :
    Nat → Int → Vars G F → Except (Halt (Vars G F)) (Vars G F)
  | 0, i, v => if i < p.start_frame then .error .fuel else .ok v
  | fuel + 1, i, v =>
    if i < p.start_frame then
      let k := if i + EID_BUFFER_LENGTH > p.start_frame
        then Int.tmod p.start_frame EID_BUFFER_LENGTH else EID_BUFFER_LENGTH
      let saved := env.save_data (frame_okay p.mode) k v.out_file_ptr
      skip_loop_FB env p fuel (i + EID_BUFFER_LENGTH)
        { v with out_file_ptr := saved.1, generated := v.generated + saved.2 }
    else .ok v

/-- Modes 'F' and 'B':
`for (i = start_frame; i < number_of_frames; i += EID_BUFFER_LENGTH)`. -/
def active_loop_FB {G F : Type} (env : Env G F) (p : Params) :
    Nat → Int → Vars G F → Except (Halt (Vars G F)) (Vars G F)
  | 0, i, v => if i < p.number_of_frames then .error .fuel else .ok v
  | fuel + 1, i, v =>
    if i < p.number_of_frames then
      let k := if i + EID_BUFFER_LENGTH > p.number_of_frames
        then p.number_of_frames - v.generated else EID_BUFFER_LENGTH
      match (if p.mode = Mode.F then run_FER_generator_random env v.error_pat v.eid k
             else run_FER_generator_burst env v.error_pat v.eid k) with
      | none => .error .fuel
      | some made =>
        let saved := env.save_data made.2.1 k v.out_file_ptr
        let v1 := { v with eid := made.2.2, error_pat := made.2.1, ber1 := (made.1 : ℚ),
                           out_file_ptr := saved.1 }
        if saved.2 < 0 then .error (.exit 8 v1)
        else active_loop_FB env p fuel (i + EID_BUFFER_LENGTH)
          { v1 with disturbed := v1.disturbed + (made.1 : ℚ),
                    processed := v1.processed + saved.2,
                    generated := v1.generated + saved.2 }
    else .ok v

/-- The `switch (mode)` inside the `do` loop: the skip phase followed by the
active phase for the mode. -/
def generate {G F : Type} (env : Env G F) (p : Params) (v : Vars G F) :
    Except (Halt (Vars G F)) (Vars G F) :=
  match p.mode with
  | Mode.R =>
    match skip_loop_R env p p.start_frame.toNat 0 { v with error_pat := frame_okay p.mode } with
    | .error e => .error e
    | .ok v1 => active_loop_R env p (p.number_of_frames - p.start_frame).toNat p.start_frame v1
  | _ =>
    match skip_loop_FB env p p.start_frame.toNat 0
        (if p.mode = Mode.B ∧ p.reset = true
          then { v with eid := env.reset_burst_eid v.eid } else v) with
    | .error e => .error e
    | .ok v1 => active_loop_FB env p (p.number_of_frames - p.start_frame).toNat p.start_frame v1

/-- One pass of the body of the `do { ... } while` loop: the counter, the
rewind, the reset of the statistics, the generation and the rates. -/
def iteration {G F : Type} (env : Env G F) (p : Params) (v : Vars G F) :
    Except (Halt (Vars G F)) (Vars G F) :=
  match generate env p
      { v with iteraction := v.iteraction + 1, out_file_ptr := env.fseek v.out_file_ptr,
               ber1 := 0, processed := 0, generated := 0, disturbed := 0 } with
  | .error e => .error e
  | .ok v1 =>
    let percentage_gen := Dbl.div v1.disturbed (v1.generated : ℚ)
    let percentage_proc := Dbl.div v1.disturbed (v1.processed : ℚ)
    .ok { v1 with percentage_gen := percentage_gen, percentage_proc := percentage_proc,
                  percentage_used := if p.tailstat = true then percentage_proc
                                     else percentage_gen }

/-- The loop condition `tolerance >= 0 && fabs (ber_rate - percentage_used) >
tolerance && iteraction < max_iteraction`. -/
def loop_again {G F : Type} (p : Params) (v : Vars G F) : Bool :=
  Dbl.le (Dbl.fin 0) p.tolerance
    && Dbl.lt p.tolerance (Dbl.fabs (Dbl.sub (Dbl.fin p.ber_rate) v.percentage_used))
    && decide (v.iteraction < p.max_iteraction)

/-- The `do { ... } while (...)` loop with an iteration budget. -/
def do_while {G F : Type} (env : Env G F) (p : Params) :
    Nat → Vars G F → Except (Halt (Vars G F)) (Vars G F)
  | 0, _ => .error .fuel
  | fuel + 1, v =>
    match iteration env p v with
    | .error e => .error e
    | .ok v1 => if loop_again p v1 = true then do_while env p fuel v1 else .ok v1

/-- The variables when the `do` loop is entered: `iteraction = 0`, the
buffer as `calloc` returns it, the device and the file as opened. -/
def initial_vars {G F : Type} (eid : G) (file : F) : Vars G F :=
  { eid := eid, out_file_ptr := file, error_pat := List.replicate 256 0, ber1 := 0,
    disturbed := 0, processed := 0, generated := 0, percentage_proc := Dbl.fin 0,
    percentage_gen := Dbl.fin 0, percentage_used := Dbl.fin 0, iteraction := 0 }

/-- The convergence loop of `main`, from the opened device and file. -/
def convergence {G F : Type} (env : Env G F) (p : Params) (eid : G) (file : F) :
    Except (Halt (Vars G F)) (Vars G F) :=
  do_while env p (max p.max_iteraction 1).toNat (initial_vars eid file)

/-- The program `main` once the device and the file are open (no state
file, so the rate is the one of the command line): the checks, then the
convergence loop.  `Sum.inl status` is an exit before the generation. -/
def main {G F : Type} (env : Env G F) (p : Params) (eid : G) (file : F) :
    Int ⊕ Except (Halt (Vars G F)) (Vars G F) :=
  match main_checks p with
  | .error status => Sum.inl status
  | .ok checked => Sum.inr (convergence env checked.1 eid file)

/-! ## Window writes that succeed -/

/-- Every window write succeeds and returns the number of symbols it was
given, for the window lengths 1 .. `EID_BUFFER_LENGTH`. -/
def SaveReturnsCount {G F : Type} (env : Env G F) : Prop :=
  ∀ (patt : List Int) (n : Int) (file : F),
    1 ≤ n → n ≤ EID_BUFFER_LENGTH → (env.save_data patt n file).2 = n

/-! ## The convergence loop as the specification words it -/

/-- The variables after `n` passes of the body of the `do` loop, the loop
condition left aside. -/
def passes {G F : Type} (env : Env G F) (p : Params) :
    Nat → Vars G F → Except (Halt (Vars G F)) (Vars G F)
  | 0, v => .ok v
  | n + 1, v =>
    match iteration env p v with
    | .error e => .error e
    | .ok v1 => passes env p n v1

/-- The exit test in the words of the specification: (tolerance is disabled)
or (|target_rate - observed| <= tolerance) or (iteration == max_iterations).
The tolerance is disabled when `tolerance >= 0` does not hold. -/
def spec_until {G F : Type} (p : Params) (v : Vars G F) : Prop :=
  Dbl.le (Dbl.fin 0) p.tolerance = false
    ∨ Dbl.le (Dbl.fabs (Dbl.sub (Dbl.fin p.ber_rate) v.percentage_used)) p.tolerance = true
    ∨ v.iteraction = p.max_iteraction

/-! ## The minimum tolerance as the specification words it -/

/-- The minimum achievable tolerance in the words of the specification:
`|round((L - s) * r) / (L - s) - r|` with `L = total_length`,
`s = start_index - 1` and `r = target_rate`, `round` rounding half up. -/
def spec_min_tol (total_length start_index : Int) (target_rate : ℚ) : ℚ :=
  |((round (((total_length - (start_index - 1) : Int) : ℚ) * target_rate) : Int) : ℚ)
      / ((total_length - (start_index - 1) : Int) : ℚ) - target_rate|

/-! ## A sample environment -/

/-- A file: the codes stored in it and the write position. -/
structure SampleFile where
  data : List Int
  pos : Nat

/-- A sample environment on which the theorems are exercised: the state of
the device counts its calls, bits are never disturbed and every third frame
is erased; the save function stores the first `n` codes of the buffer at the
write position and returns `n`; `fseek` moves the position to the start. -/
def sample_env : Env Nat SampleFile where
  BER_generator := fun g k patt =>
    (g + k.toNat, List.replicate k.toNat G192_ZERO ++ patt.drop k.toNat, 0)
  FER_generator_random := fun g => (g + 1, if g % 3 = 2 then 1 else 0)
  FER_generator_burst := fun g => (g + 1, if g % 3 = 2 then 1 else 0)
  reset_burst_eid := fun _ => 0
  save_data := fun patt n file =>
    ({ data := file.data.take file.pos ++ patt.take n.toNat
                 ++ file.data.drop (file.pos + n.toNat),
       pos := file.pos + n.toNat }, n)
  fseek := fun file => { file with pos := 0 }

/-- An empty file. -/
def empty_file : SampleFile := { data := [], pos := 0 }

/-- Parameters with the defaults of `main` (`tolerance = -1`,
`max_iteraction = 100`, no reset, statistics on the whole file). -/
def default_params (mode : Mode) (number_of_frames start_frame : Int) (ber_rate : ℚ) :
    Params :=
  { mode := mode, number_of_frames := number_of_frames, start_frame := start_frame,
    ber_rate := ber_rate, tolerance := Dbl.fin (-1), max_iteraction := 100,
    reset := false, tailstat := false, index := 0 }

/-- The request of 3 frames from start frame 1 at rate 0.5 in mode 'F' with
the tolerance given as 0 (`-tol 0`). -/
def three_frames_request : Params :=
  { default_params Mode.F 3 1 (1 / 2) with tolerance := Dbl.fin 0 }

/-- The parameters that the checks leave for `three_frames_request`. -/
def three_frames_checked : Params :=
  { default_params Mode.F 3 0 (1 / 2) with tolerance := Dbl.fin 0 }

/-- The sample environment with a save function that always fails: it
leaves the file alone and returns -1. -/
def failing_env : Env Nat SampleFile :=
  { sample_env with save_data := fun _ _ file => (file, -1) }

/-- The sample environment with a save function whose first call after a
rewind fails (it returns -1 and only marks the file) and whose later calls
succeed. -/
def first_write_fails_env : Env Nat SampleFile :=
  { sample_env with
    save_data := fun patt n file =>
      if file.pos = 0 then ({ file with pos := 1 }, -1)
      else sample_env.save_data patt n file }

/-! ## The symbol source called one symbol at a time -/

/-- The state of a frame erasure device after `n` calls in a row. -/
def draw_state {G : Type} (gen : G → G × Int) : Nat → G → G
  | 0, state => state
  | n + 1, state => draw_state gen n (gen state).1

/-- The G.192 codes of `n` calls of a frame erasure device in a row, in the
order of the calls: `G192_FER` for a non-zero result, `G192_SYNC` for zero. -/
def draw_codes {G : Type} (gen : G → G × Int) : Nat → G → List Int
  | 0, _ => []
  | n + 1, state =>
    (if (gen state).2 ≠ 0 then G192_FER else G192_SYNC) :: draw_codes gen n (gen state).1

/-! ## The compact format -/

/-- Modelled from the spec: the output sink of section 6, "a random-access
byte sink supporting rewind-to-start and sequential append"; `save_g192`,
`save_byte` and `save_bit` of softbit.c are not among the sources.  Writing
`xs` puts it at the write position, over what is there, and moves the
position past it. -/
def SampleFile.write (file : SampleFile) (xs : List Int) : SampleFile :=
  { data := file.data.take file.pos ++ xs ++ file.data.drop (file.pos + xs.length),
    pos := file.pos + xs.length }

/-- Modelled from the spec: the symbols of section 4.1 that are DISTURBED,
the bit error `G192_ONE` and the erased frame `G192_FER`. -/
def is_disturbed (code : Int) : Bool :=
  decide (code = G192_ONE) || decide (code = G192_FER)

/-- Modelled from the spec: one byte of the Compact format of section 4.1,
"bit 0 (least-significant) holds the symbol earliest in time within that
byte, bit 7 the latest; DISTURBED=1, OK=0"; the bits of a partial byte that
hold no symbol are 0. -/
def pack_byte : List Int → Int
  | [] => 0
  | code :: rest => (if is_disturbed code = true then 1 else 0) + 2 * pack_byte rest

/-- Modelled from the spec: the Compact format of section 4.1, "8 symbols
packed per output byte", with a budget of one byte per symbol. -/
def pack_bits_loop : Nat → List Int → List Int
  | 0, _ => []
  | fuel + 1, symbols =>
    if symbols = [] then [] else pack_byte (symbols.take 8) :: pack_bits_loop fuel (symbols.drop 8)

/-- Modelled from the spec: the Compact encoding of a sequence of symbols. -/
def pack_bits (symbols : List Int) : List Int :=
  pack_bits_loop symbols.length symbols

/-- Modelled from the spec: the save function of the Compact format,
`save_bit` of softbit.c, which is not among the sources: the first `n`
entries of the buffer are encoded on their own and written, and `n` is
returned. -/
def save_bit (patt : List Int) (n : Int) (file : SampleFile) : SampleFile × Int :=
  (file.write (pack_bits (patt.take n.toNat)), n)

/-- The sample environment with a device that erases every frame. -/
def erasing_env : Env Nat SampleFile :=
  { sample_env with
    FER_generator_random := fun g => (g + 1, 1)
    FER_generator_burst := fun g => (g + 1, 1) }

/-- The environment `erasing_env` with the save function of the Compact
format. -/
def compact_env : Env Nat SampleFile :=
  { erasing_env with save_data := save_bit }

/-! ## The loops with the buffer length as a parameter

The generation of `main` once more, with the constant `EID_BUFFER_LENGTH`
replaced by a parameter `W` and with an assertion `ok k` on every window
length `k` before it is handed to the generator and to the save function
(a failed assertion ends the run with status 134).  With `W =
EID_BUFFER_LENGTH` and `ok` always true these are the loops above. -/

/-- The array `frame_okay` for the buffer length `W`. -/
def frame_okay_W (W : Int) (mode : Mode) : List Int :=
  List.replicate W.toNat (if mode = Mode.R then G192_ZERO else G192_SYNC)

/-- The frame erasure device of the mode: `FER_generator_random` in mode 'F',
`FER_generator_burst` otherwise. -/
def fer_gen {G F : Type} (env : Env G F) (mode : Mode) : G → G × Int :=
  if mode = Mode.F then env.FER_generator_random else env.FER_generator_burst

/-- Mode 'R', `for (i = 0; i < start_frame; i += W)`. -/
def skip_loop_R_W {G F : Type} (W : Int) (ok : Int → Bool) (env : Env G F) (p : Params) :
    Nat → Int → Vars G F → Except (Halt (Vars G F)) (Vars G F)
  | 0, i, v => if i < p.start_frame then .error .fuel else .ok v
  | fuel + 1, i, v =>
    if i < p.start_frame then
      let k := if i + W > p.start_frame then Int.tmod p.start_frame W else W
      if ok k = false then .error (.exit 134 v)
      else
        let saved := env.save_data v.error_pat k v.out_file_ptr
        let v1 := { v with out_file_ptr := saved.1 }
        if saved.2 < 0 then .error (.exit 8 v1)
        else skip_loop_R_W W ok env p fuel (i + W)
          { v1 with generated := v1.generated + saved.2 }
    else .ok v

/-- Mode 'R', `for (i = start_frame; i < number_of_frames; i += W)`. -/
def active_loop_R_W {G F : Type} (W : Int) (ok : Int → Bool) (env : Env G F) (p : Params) :
    Nat → Int → Vars G F → Except (Halt (Vars G F)) (Vars G F)
  | 0, i, v => if i < p.number_of_frames then .error .fuel else .ok v
  | fuel + 1, i, v =>
    if i < p.number_of_frames then
      let k := if i + W > p.number_of_frames then p.number_of_frames - v.generated else W
      if ok k = false then .error (.exit 134 v)
      else
        let made := env.BER_generator v.eid k v.error_pat
        let saved := env.save_data made.2.1 k v.out_file_ptr
        let v1 := { v with eid := made.1, error_pat := made.2.1, ber1 := made.2.2,
                           out_file_ptr := saved.1 }
        if saved.2 < 0 then .error (.exit 8 v1)
        else active_loop_R_W W ok env p fuel (i + W)
          { v1 with disturbed := v1.disturbed + made.2.2,
                    processed := v1.processed + saved.2,
                    generated := v1.generated + saved.2 }
    else .ok v

/-- Modes 'F' and 'B', `for (i = 0; i < start_frame; i += W)`. -/
def skip_loop_FB_W {G F : Type} (W : Int) (ok : Int → Bool) (env : Env G F) (p : Params) :
    Nat → Int → Vars G F → Except (Halt (Vars G F)) (Vars G F)
  | 0, i, v => if i < p.start_frame then .error .fuel else .ok v
  | fuel + 1, i, v =>
    if i < p.start_frame then
      let k := if i + W > p.start_frame then Int.tmod p.start_frame W else W
      if ok k = false then .error (.exit 134 v)
      else
        let saved := env.save_data (frame_okay_W W p.mode) k v.out_file_ptr
        skip_loop_FB_W W ok env p fuel (i + W)
          { v with out_file_ptr := saved.1, generated := v.generated + saved.2 }
    else .ok v

/-- Modes 'F' and 'B', `for (i = start_frame; i < number_of_frames; i += W)`. -/
def active_loop_FB_W {G F : Type} (W : Int) (ok : Int → Bool) (env : Env G F) (p : Params) :
    Nat → Int → Vars G F → Except (Halt (Vars G F)) (Vars G F)
  | 0, i, v => if i < p.number_of_frames then .error .fuel else .ok v
  | fuel + 1, i, v =>
    if i < p.number_of_frames then
      let k := if i + W > p.number_of_frames then p.number_of_frames - v.generated else W
      if ok k = false then .error (.exit 134 v)
      else
        match (if p.mode = Mode.F then run_FER_generator_random env v.error_pat v.eid k
               else run_FER_generator_burst env v.error_pat v.eid k) with
        | none => .error .fuel
        | some made =>
          let saved := env.save_data made.2.1 k v.out_file_ptr
          let v1 := { v with eid := made.2.2, error_pat := made.2.1, ber1 := (made.1 : ℚ),
                             out_file_ptr := saved.1 }
          if saved.2 < 0 then .error (.exit 8 v1)
          else active_loop_FB_W W ok env p fuel (i + W)
            { v1 with disturbed := v1.disturbed + (made.1 : ℚ),
                      processed := v1.processed + saved.2,
                      generated := v1.generated + saved.2 }
    else .ok v

/-- The `switch (mode)` inside the `do` loop for the buffer length `W`. -/
def generate_W {G F : Type} (W : Int) (ok : Int → Bool) (env : Env G F) (p : Params)
    (v : Vars G F) : Except (Halt (Vars G F)) (Vars G F) :=
  match p.mode with
  | Mode.R =>
    match skip_loop_R_W W ok env p p.start_frame.toNat 0
        { v with error_pat := frame_okay_W W p.mode } with
    | .error e => .error e
    | .ok v1 =>
      active_loop_R_W W ok env p (p.number_of_frames - p.start_frame).toNat p.start_frame v1
  | _ =>
    match skip_loop_FB_W W ok env p p.start_frame.toNat 0
        (if p.mode = Mode.B ∧ p.reset = true
          then { v with eid := env.reset_burst_eid v.eid } else v) with
    | .error e => .error e
    | .ok v1 =>
      active_loop_FB_W W ok env p (p.number_of_frames - p.start_frame).toNat p.start_frame v1

/-- One pass of the body of the `do` loop for the buffer length `W`. -/
def iteration_W {G F : Type} (W : Int) (ok : Int → Bool) (env : Env G F) (p : Params)
    (v : Vars G F) : Except (Halt (Vars G F)) (Vars G F) :=
  match generate_W W ok env p
      { v with iteraction := v.iteraction + 1, out_file_ptr := env.fseek v.out_file_ptr,
               ber1 := 0, processed := 0, generated := 0, disturbed := 0 } with
  | .error e => .error e
  | .ok v1 =>
    let percentage_gen := Dbl.div v1.disturbed (v1.generated : ℚ)
    let percentage_proc := Dbl.div v1.disturbed (v1.processed : ℚ)
    .ok { v1 with percentage_gen := percentage_gen, percentage_proc := percentage_proc,
                  percentage_used := if p.tailstat = true then percentage_proc
                                     else percentage_gen }

/-! ## The windows of a pass -/

/-- The lengths of the windows that cover `m` symbols with buffers of `W`
symbols: `W`, ..., `W` and the remainder. -/
def window_sizes (W : Int) : Nat → Int → List Int
  | 0, _ => []
  | fuel + 1, m => if 0 < m then min m W :: window_sizes W fuel (m - W) else []

/-- The file after the save function has been called for each of the
windows `(buffer, k)` in turn. -/
def save_all {G F : Type} (env : Env G F) (windows : List (List Int × Int)) (file : F) : F :=
  windows.foldl (fun f w => (env.save_data w.1 w.2 f).1) file

/-- The windows `(buffer, k)` that cover `m` frames drawn one after the
other from the device `gen` in state `state`: each window holds the codes of
the next `k` calls at the start of the buffer. -/
def fer_windows {G : Type} (gen : G → G × Int) (W : Int) :
    Nat → Int → G → List Int → List (List Int × Int)
  | 0, _, _, _ => []
  | fuel + 1, m, state, patt =>
    if 0 < m then
      (draw_codes gen (min m W).toNat state ++ patt.drop (min m W).toNat, min m W)
        :: fer_windows gen W fuel (m - W) (draw_state gen (min m W).toNat state)
            (draw_codes gen (min m W).toNat state ++ patt.drop (min m W).toNat)
    else []

/-- The windows `(buffer, k)` that cover `m` bits made by `BER_generator`,
one call per window. -/
def ber_windows {G F : Type} (env : Env G F) (W : Int) :
    Nat → Int → G → List Int → List (List Int × Int)
  | 0, _, _, _ => []
  | fuel + 1, m, state, patt =>
    if 0 < m then
      ((env.BER_generator state (min m W) patt).2.1, min m W)
        :: ber_windows env W fuel (m - W) (env.BER_generator state (min m W) patt).1
            (env.BER_generator state (min m W) patt).2.1
    else []

/-! ## The symbols of a pass -/

/-- The symbols that the calls of the save function for the windows
`(buffer, k)` hand over, in the order of the calls: the first `k` entries of
each buffer. -/
def symbols_of : List (List Int × Int) → List Int
  | [] => []
  | w :: ws => w.1.take w.2.toNat ++ symbols_of ws

/-- The windows of the skip phase of a pass for the buffer length `W`: the
array `frame_okay` with the lengths `window_sizes`. -/
def skip_windows (W : Int) (p : Params) : List (List Int × Int) :=
  (window_sizes W p.start_frame.toNat p.start_frame).map (fun k => (frame_okay_W W p.mode, k))

/-- The state of the device when the generation of a pass starts: reset by
`reset_burst_eid` in mode 'B' with `-reset`, else as the pass found it. -/
def pass_state {G F : Type} (env : Env G F) (p : Params) (v : Vars G F) : G :=
  if p.mode = Mode.B ∧ p.reset = true then env.reset_burst_eid v.eid else v.eid

/-- The windows of the active phase of a pass for the buffer length `W`. -/
def active_windows {G F : Type} (env : Env G F) (W : Int) (p : Params) (v : Vars G F) :
    List (List Int × Int) :=
  if p.mode = Mode.R then
    ber_windows env W (p.number_of_frames - p.start_frame).toNat
      (p.number_of_frames - p.start_frame) v.eid (frame_okay_W W p.mode)
  else
    fer_windows (fer_gen env p.mode) W (p.number_of_frames - p.start_frame).toNat
      (p.number_of_frames - p.start_frame) (pass_state env p v) v.error_pat

/-- The windows of a pass for the buffer length `W`, in the order in which
the save function is called for them. -/
def pass_windows {G F : Type} (env : Env G F) (W : Int) (p : Params) (v : Vars G F) :
    List (List Int × Int) :=
  skip_windows W p ++ active_windows env W p v

/-! ## The frame erasure run as the specification words it -/

/-- The generation run of the frame-erasure modes in the words of the
specification, one symbol at a time with no window: the positions
1 .. `start_index - 1` are OK symbols and the source is not consulted; for
each of the positions `start_index` .. `total_length` the source is invoked
once.  The result is the symbol sequence and the state of the source
afterwards. -/
def spec_run {G : Type} (next : G → G × Int) (start_index total_length : Int) (state : G) :
    List Int × G :=
  (List.replicate (start_index - 1).toNat G192_SYNC
      ++ draw_codes next (total_length - start_index + 1).toNat state,
    draw_state next (total_length - start_index + 1).toNat state)

/-! ## The output file behind a format encoder -/

/-- Modelled from the spec: the output sink of section 6, "a random-access
byte sink supporting rewind-to-start and sequential append", written through
a Format Encoder of section 4.1; `save_g192`, `save_byte`, `save_bit` and
`fseek` are not among the sources.  The save function encodes the first `n`
entries of the buffer, writes the bytes at the write position over what is
there and returns `n`; `fseek (out_file_ptr, 0l, 0)` moves the write
position to offset 0 and leaves the contents of the file as they are. -/
def file_env {G : Type} (base : Env G SampleFile) (encode : List Int → List Int) :
    Env G SampleFile :=
  { base with
    save_data := fun patt n file => (file.write (encode (patt.take n.toNat)), n)
    fseek := fun file => { file with pos := 0 } }

/-- The bytes that the save function of `file_env` writes when it is called
for the windows `(buffer, k)` in turn. -/
def bytes_of (encode : List Int → List Int) : List (List Int × Int) → List Int
  | [] => []
  | w :: ws => encode (w.1.take w.2.toNat) ++ bytes_of encode ws

/-- The number of bytes of the windows of a pass when a window of `k`
symbols is encoded in `size k` bytes. -/
def pass_bytes (size : Nat → Nat) (p : Params) : Nat :=
  ((window_sizes EID_BUFFER_LENGTH p.start_frame.toNat p.start_frame
      ++ window_sizes EID_BUFFER_LENGTH (p.number_of_frames - p.start_frame).toNat
          (p.number_of_frames - p.start_frame)).map (fun k => size k.toNat)).sum

/-! # Theorems -/

/-- The window length of the skip phase at offset `i`. -/
theorem skip_window {s i : Int} (h0 : 0 ≤ i) (hd : (256 : Int) ∣ i) (hlt : i < s) :
    (if i + EID_BUFFER_LENGTH > s then Int.tmod s EID_BUFFER_LENGTH else EID_BUFFER_LENGTH)
      = min (s - i) 256 := by
  have hs : (0 : Int) ≤ s := by omega
  rw [Int.tmod_eq_emod hs (by decide)]
  simp only [EID_BUFFER_LENGTH]
  split_ifs with h <;> omega

theorem skip_loop_R_past {G F : Type} (env : Env G F) (p : Params) (fuel : Nat) (i : Int)
    (v : Vars G F) (h : p.start_frame ≤ i) : skip_loop_R env p fuel i v = .ok v := by
  cases fuel <;> simp [skip_loop_R, not_lt.mpr h]

theorem skip_loop_FB_past {G F : Type} (env : Env G F) (p : Params) (fuel : Nat) (i : Int)
    (v : Vars G F) (h : p.start_frame ≤ i) : skip_loop_FB env p fuel i v = .ok v := by
  cases fuel <;> simp [skip_loop_FB, not_lt.mpr h]

theorem active_loop_R_past {G F : Type} (env : Env G F) (p : Params) (fuel : Nat) (i : Int)
    (v : Vars G F) (h : p.number_of_frames ≤ i) : active_loop_R env p fuel i v = .ok v := by
  cases fuel <;> simp [active_loop_R, not_lt.mpr h]

theorem active_loop_FB_past {G F : Type} (env : Env G F) (p : Params) (fuel : Nat) (i : Int)
    (v : Vars G F) (h : p.number_of_frames ≤ i) : active_loop_FB env p fuel i v = .ok v := by
  cases fuel <;> simp [active_loop_FB, not_lt.mpr h]

/-- The skip loop of mode 'R' writes `start_frame - i` symbols from offset `i`
on and touches no other counter. -/
theorem skip_loop_R_spec {G F : Type} (env : Env G F) (p : Params)
    (hsave : SaveReturnsCount env) :
    ∀ (fuel : Nat) (i : Int) (v : Vars G F), 0 ≤ i → (256 : Int) ∣ i → i ≤ p.start_frame →
      p.start_frame - i ≤ 256 * (fuel : Int) →
      ∃ v1, skip_loop_R env p fuel i v = .ok v1
        ∧ v1.generated = v.generated + (p.start_frame - i)
        ∧ v1.processed = v.processed ∧ v1.iteraction = v.iteraction
        ∧ v1.disturbed = v.disturbed ∧ v1.eid = v.eid ∧ v1.error_pat = v.error_pat := by
  intro fuel
  induction fuel with
  | zero =>
    intro i v _ _ hle hf
    have hi : p.start_frame ≤ i := by omega
    refine ⟨v, skip_loop_R_past env p 0 i v hi, ?_, rfl, rfl, rfl, rfl, rfl⟩
    omega
  | succ f ih =>
    intro i v h0 hd hle hf
    by_cases hlt : i < p.start_frame
    · have hk := skip_window h0 hd hlt
      have hk1 : (1 : Int) ≤ min (p.start_frame - i) 256 := by omega
      have hk2 : min (p.start_frame - i) 256 ≤ EID_BUFFER_LENGTH := by
        simp only [EID_BUFFER_LENGTH]; omega
      have hitems := hsave v.error_pat _ v.out_file_ptr hk1 hk2
      have hneg : ¬ (min (p.start_frame - i) 256 < 0) := by omega
      have hd1 : (256 : Int) ∣ i + 256 := by omega
      simp only [skip_loop_R, if_pos hlt, hk, hitems, if_neg hneg]
      rw [show EID_BUFFER_LENGTH = 256 from rfl]
      by_cases hlast : i + 256 > p.start_frame
      · rw [skip_loop_R_past env p f (i + 256) _ (by omega)]
        refine ⟨_, rfl, ?_, rfl, rfl, rfl, rfl, rfl⟩
        simp only
        omega
      · have hf1 : p.start_frame - (i + 256) ≤ 256 * (f : Int) := by push_cast at hf; omega
        obtain ⟨v1, hv1, hg, hp, hit, hdi, he, hpat⟩ :=
          ih (i + 256)
            { v with out_file_ptr := (env.save_data v.error_pat
                       (min (p.start_frame - i) 256) v.out_file_ptr).1,
                     generated := v.generated + min (p.start_frame - i) 256 }
            (by omega) hd1 (by omega) hf1
        refine ⟨v1, hv1, ?_, hp, hit, hdi, he, hpat⟩
        rw [hg]
        simp only
        omega
    · have hi : p.start_frame ≤ i := by omega
      refine ⟨v, skip_loop_R_past env p _ i v hi, ?_, rfl, rfl, rfl, rfl, rfl⟩
      omega

/-- The skip loop of modes 'F' and 'B' writes `start_frame - i` symbols from
offset `i` on and touches no other counter. -/
theorem skip_loop_FB_spec {G F : Type} (env : Env G F) (p : Params)
    (hsave : SaveReturnsCount env) :
    ∀ (fuel : Nat) (i : Int) (v : Vars G F), 0 ≤ i → (256 : Int) ∣ i → i ≤ p.start_frame →
      p.start_frame - i ≤ 256 * (fuel : Int) →
      ∃ v1, skip_loop_FB env p fuel i v = .ok v1
        ∧ v1.generated = v.generated + (p.start_frame - i)
        ∧ v1.processed = v.processed ∧ v1.iteraction = v.iteraction
        ∧ v1.disturbed = v.disturbed ∧ v1.eid = v.eid ∧ v1.error_pat = v.error_pat := by
  intro fuel
  induction fuel with
  | zero =>
    intro i v _ _ hle hf
    have hi : p.start_frame ≤ i := by omega
    refine ⟨v, skip_loop_FB_past env p 0 i v hi, ?_, rfl, rfl, rfl, rfl, rfl⟩
    omega
  | succ f ih =>
    intro i v h0 hd hle hf
    by_cases hlt : i < p.start_frame
    · have hk := skip_window h0 hd hlt
      have hk1 : (1 : Int) ≤ min (p.start_frame - i) 256 := by omega
      have hk2 : min (p.start_frame - i) 256 ≤ EID_BUFFER_LENGTH := by
        simp only [EID_BUFFER_LENGTH]; omega
      have hitems := hsave (frame_okay p.mode) _ v.out_file_ptr hk1 hk2
      have hd1 : (256 : Int) ∣ i + 256 := by omega
      simp only [skip_loop_FB, if_pos hlt, hk, hitems]
      rw [show EID_BUFFER_LENGTH = 256 from rfl]
      by_cases hlast : i + 256 > p.start_frame
      · rw [skip_loop_FB_past env p f (i + 256) _ (by omega)]
        refine ⟨_, rfl, ?_, rfl, rfl, rfl, rfl, rfl⟩
        simp only
        omega
      · have hf1 : p.start_frame - (i + 256) ≤ 256 * (f : Int) := by push_cast at hf; omega
        obtain ⟨v1, hv1, hg, hp, hit, hdi, he, hpat⟩ :=
          ih (i + 256)
            { v with out_file_ptr := (env.save_data (frame_okay p.mode)
                       (min (p.start_frame - i) 256) v.out_file_ptr).1,
                     generated := v.generated + min (p.start_frame - i) 256 }
            (by omega) hd1 (by omega) hf1
        refine ⟨v1, hv1, ?_, hp, hit, hdi, he, hpat⟩
        rw [hg]
        simp only
        omega
    · have hi : p.start_frame ≤ i := by omega
      refine ⟨v, skip_loop_FB_past env p _ i v hi, ?_, rfl, rfl, rfl, rfl, rfl⟩
      omega

/-- The window length of the active phase at offset `i`, when `generated = i`. -/
theorem active_window {n i : Int} (hlt : i < n) :
    (if i + EID_BUFFER_LENGTH > n then n - i else EID_BUFFER_LENGTH) = min (n - i) 256 := by
  simp only [EID_BUFFER_LENGTH]
  split_ifs with h <;> omega

/-- The active loop of mode 'R', entered with `generated = i`, ends with
`generated = number_of_frames` and has processed `number_of_frames - i` more
symbols. -/
theorem active_loop_R_spec {G F : Type} (env : Env G F) (p : Params)
    (hsave : SaveReturnsCount env) :
    ∀ (fuel : Nat) (i : Int) (v : Vars G F), v.generated = i → i ≤ p.number_of_frames →
      p.number_of_frames - i ≤ 256 * (fuel : Int) →
      ∃ v1, active_loop_R env p fuel i v = .ok v1
        ∧ v1.generated = p.number_of_frames
        ∧ v1.processed = v.processed + (p.number_of_frames - i)
        ∧ v1.iteraction = v.iteraction := by
  intro fuel
  induction fuel with
  | zero =>
    intro i v hg hle hf
    have hi : p.number_of_frames ≤ i := by omega
    refine ⟨v, active_loop_R_past env p 0 i v hi, ?_, ?_, rfl⟩ <;> omega
  | succ f ih =>
    intro i v hg hle hf
    subst hg
    by_cases hlt : v.generated < p.number_of_frames
    · have hk := active_window hlt
      have hk1 : (1 : Int) ≤ min (p.number_of_frames - v.generated) 256 := by omega
      have hk2 : min (p.number_of_frames - v.generated) 256 ≤ EID_BUFFER_LENGTH := by
        simp only [EID_BUFFER_LENGTH]; omega
      have hneg : ¬ (min (p.number_of_frames - v.generated) 256 < 0) := by omega
      simp only [active_loop_R, if_pos hlt, hk, hsave _ _ _ hk1 hk2, if_neg hneg]
      rw [show EID_BUFFER_LENGTH = 256 from rfl]
      by_cases hlast : v.generated + 256 > p.number_of_frames
      · rw [active_loop_R_past env p f (v.generated + 256) _ (by omega)]
        refine ⟨_, rfl, ?_, ?_, rfl⟩ <;> simp only <;> omega
      · have hf1 : p.number_of_frames - (v.generated + 256) ≤ 256 * (f : Int) := by
          push_cast at hf; omega
        have hm : min (p.number_of_frames - v.generated) 256 = 256 := by omega
        rw [hm]
        obtain ⟨v1, hv1, hg1, hp1, hit1⟩ :=
          ih (v.generated + 256)
            { v with eid := (env.BER_generator v.eid 256 v.error_pat).1,
                     error_pat := (env.BER_generator v.eid 256 v.error_pat).2.1,
                     ber1 := (env.BER_generator v.eid 256 v.error_pat).2.2,
                     out_file_ptr := (env.save_data
                       (env.BER_generator v.eid 256 v.error_pat).2.1 256 v.out_file_ptr).1,
                     disturbed := v.disturbed + (env.BER_generator v.eid 256 v.error_pat).2.2,
                     processed := v.processed + 256,
                     generated := v.generated + 256 }
            rfl (by omega) hf1
        refine ⟨v1, hv1, hg1, ?_, hit1⟩
        rw [hp1]
        simp only
        omega
    · have hi : p.number_of_frames ≤ v.generated := by omega
      refine ⟨v, active_loop_R_past env p _ _ v hi, ?_, ?_, rfl⟩ <;> omega

/-- With a budget of at least `n - i` the loop of `run_FER_generator_*` returns. -/
theorem run_FER_loop_returns {G : Type} (gen : G → G × Int) (n : Int) :
    ∀ (fuel : Nat) (i count : Int) (patt : List Int) (state : G), n - i ≤ (fuel : Int) →
      ∃ r, run_FER_loop gen n fuel i count patt state = some r := by
  intro fuel
  induction fuel with
  | zero =>
    intro i count patt state hf
    have hi : ¬ i < n := by omega
    exact ⟨(count, patt, state), by simp [run_FER_loop, hi]⟩
  | succ f ih =>
    intro i count patt state hf
    by_cases hlt : i < n
    · simp only [run_FER_loop, if_pos hlt]
      exact ih _ _ _ _ (by push_cast at hf; omega)
    · exact ⟨(count, patt, state), by simp [run_FER_loop, hlt]⟩

/-- The active loop of modes 'F' and 'B', entered with `generated = i`, ends
with `generated = number_of_frames` and has processed `number_of_frames - i`
more symbols. -/
theorem active_loop_FB_spec {G F : Type} (env : Env G F) (p : Params)
    (hsave : SaveReturnsCount env) :
    ∀ (fuel : Nat) (i : Int) (v : Vars G F), v.generated = i → i ≤ p.number_of_frames →
      p.number_of_frames - i ≤ 256 * (fuel : Int) →
      ∃ v1, active_loop_FB env p fuel i v = .ok v1
        ∧ v1.generated = p.number_of_frames
        ∧ v1.processed = v.processed + (p.number_of_frames - i)
        ∧ v1.iteraction = v.iteraction := by
  intro fuel
  induction fuel with
  | zero =>
    intro i v hg hle hf
    have hi : p.number_of_frames ≤ i := by omega
    refine ⟨v, active_loop_FB_past env p 0 i v hi, ?_, ?_, rfl⟩ <;> omega
  | succ f ih =>
    intro i v hg hle hf
    subst hg
    by_cases hlt : v.generated < p.number_of_frames
    · have hk := active_window hlt
      have hk1 : (1 : Int) ≤ min (p.number_of_frames - v.generated) 256 := by omega
      have hk2 : min (p.number_of_frames - v.generated) 256 ≤ EID_BUFFER_LENGTH := by
        simp only [EID_BUFFER_LENGTH]; omega
      have hneg : ¬ (min (p.number_of_frames - v.generated) 256 < 0) := by omega
      obtain ⟨made, hmade⟩ : ∃ made,
          (if p.mode = Mode.F
            then run_FER_generator_random env v.error_pat v.eid
              (min (p.number_of_frames - v.generated) 256)
            else run_FER_generator_burst env v.error_pat v.eid
              (min (p.number_of_frames - v.generated) 256)) = some made := by
        split_ifs
        · exact run_FER_loop_returns _ _ _ _ _ _ _ (by omega)
        · exact run_FER_loop_returns _ _ _ _ _ _ _ (by omega)
      simp only [active_loop_FB, if_pos hlt, hk, hmade, hsave _ _ _ hk1 hk2, if_neg hneg]
      rw [show EID_BUFFER_LENGTH = 256 from rfl]
      by_cases hlast : v.generated + 256 > p.number_of_frames
      · rw [active_loop_FB_past env p f (v.generated + 256) _ (by omega)]
        refine ⟨_, rfl, ?_, ?_, rfl⟩ <;> simp only <;> omega
      · have hf1 : p.number_of_frames - (v.generated + 256) ≤ 256 * (f : Int) := by
          push_cast at hf; omega
        have hm : min (p.number_of_frames - v.generated) 256 = 256 := by omega
        rw [hm]
        obtain ⟨v1, hv1, hg1, hp1, hit1⟩ :=
          ih (v.generated + 256)
            { v with eid := made.2.2, error_pat := made.2.1, ber1 := (made.1 : ℚ),
                     out_file_ptr := (env.save_data made.2.1 256 v.out_file_ptr).1,
                     disturbed := v.disturbed + (made.1 : ℚ),
                     processed := v.processed + 256,
                     generated := v.generated + 256 }
            rfl (by omega) hf1
        refine ⟨v1, hv1, hg1, ?_, hit1⟩
        rw [hp1]
        simp only
        omega
    · have hi : p.number_of_frames ≤ v.generated := by omega
      refine ⟨v, active_loop_FB_past env p _ _ v hi, ?_, ?_, rfl⟩ <;> omega

/-- The generation of one pass, entered with the counters at zero, writes
`number_of_frames` symbols, `number_of_frames - start_frame` of them in the
active phase (`start_frame` zero-based). -/
theorem generate_spec {G F : Type} (env : Env G F) (p : Params)
    (hsave : SaveReturnsCount env) (h0 : 0 ≤ p.start_frame)
    (hlt : p.start_frame < p.number_of_frames) (v : Vars G F)
    (hg : v.generated = 0) (hp : v.processed = 0) :
    ∃ v1, generate env p v = .ok v1
      ∧ v1.generated = p.number_of_frames
      ∧ v1.processed = p.number_of_frames - p.start_frame
      ∧ v1.iteraction = v.iteraction := by
  have hfs : p.start_frame - 0 ≤ 256 * (p.start_frame.toNat : Int) := by
    rw [Int.toNat_of_nonneg h0]; omega
  have hfa : p.number_of_frames - p.start_frame
      ≤ 256 * ((p.number_of_frames - p.start_frame).toNat : Int) := by
    rw [Int.toNat_of_nonneg (by omega)]; omega
  unfold generate
  split
  · obtain ⟨v1, hv1, hg1, hp1, hit1, -⟩ :=
      skip_loop_R_spec env p hsave p.start_frame.toNat 0
        { v with error_pat := frame_okay p.mode } (le_refl 0) (dvd_zero 256) h0 hfs
    rw [hv1]
    obtain ⟨v2, hv2, hg2, hp2, hit2⟩ :=
      active_loop_R_spec env p hsave _ p.start_frame v1
        (by rw [hg1]; simp only; omega) (le_of_lt hlt) hfa
    refine ⟨v2, hv2, hg2, ?_, ?_⟩
    · rw [hp2, hp1]; simp only; omega
    · rw [hit2, hit1]
  · obtain ⟨v1, hv1, hg1, hp1, hit1, -⟩ :=
      skip_loop_FB_spec env p hsave p.start_frame.toNat 0
        (if p.mode = Mode.B ∧ p.reset = true then { v with eid := env.reset_burst_eid v.eid }
          else v) (le_refl 0) (dvd_zero 256) h0 hfs
    rw [hv1]
    have hsplit : (if p.mode = Mode.B ∧ p.reset = true
        then { v with eid := env.reset_burst_eid v.eid } else v).generated = v.generated
        ∧ (if p.mode = Mode.B ∧ p.reset = true
        then { v with eid := env.reset_burst_eid v.eid } else v).processed = v.processed
        ∧ (if p.mode = Mode.B ∧ p.reset = true
        then { v with eid := env.reset_burst_eid v.eid } else v).iteraction = v.iteraction := by
      split_ifs <;> exact ⟨rfl, rfl, rfl⟩
    obtain ⟨v2, hv2, hg2, hp2, hit2⟩ :=
      active_loop_FB_spec env p hsave _ p.start_frame v1
        (by rw [hg1, hsplit.1]; omega) (le_of_lt hlt) hfa
    refine ⟨v2, hv2, hg2, ?_, ?_⟩
    · rw [hp2, hp1, hsplit.2.1]; omega
    · rw [hit2, hit1, hsplit.2.2]

/-- One pass of the convergence loop on checked parameters: it ends normally,
with `generated = number_of_frames`, `processed = number_of_frames -
start_frame`, the counter one higher and finite rates. -/
theorem iteration_spec {G F : Type} (env : Env G F) (p : Params)
    (hsave : SaveReturnsCount env) (h0 : 0 ≤ p.start_frame)
    (hlt : p.start_frame < p.number_of_frames) (v : Vars G F) :
    ∃ v1, iteration env p v = .ok v1
      ∧ v1.generated = p.number_of_frames
      ∧ v1.processed = p.number_of_frames - p.start_frame
      ∧ v1.iteraction = v.iteraction + 1
      ∧ v1.percentage_used = Dbl.fin (if p.tailstat = true
          then v1.disturbed / ((p.number_of_frames - p.start_frame : Int) : ℚ)
          else v1.disturbed / (p.number_of_frames : ℚ)) := by
  obtain ⟨v1, hv1, hg1, hp1, hit1⟩ := generate_spec env p hsave h0 hlt
    { v with iteraction := v.iteraction + 1, out_file_ptr := env.fseek v.out_file_ptr,
             ber1 := 0, processed := 0, generated := 0, disturbed := 0 } rfl rfl
  unfold iteration
  simp only [hv1]
  refine ⟨_, rfl, hg1, hp1, hit1, ?_⟩
  have hN : (p.number_of_frames : ℚ) ≠ 0 := by
    have : p.number_of_frames ≠ 0 := by omega
    exact_mod_cast this
  have hA : ((p.number_of_frames - p.start_frame : Int) : ℚ) ≠ 0 := by
    have : p.number_of_frames - p.start_frame ≠ 0 := by omega
    exact_mod_cast this
  simp only [hg1, hp1, Dbl.div, if_neg hN, if_neg hA]
  split_ifs <;> rfl

/-! ## The parameter checks -/

/-- What the checks leave in the parameters when they pass. -/
theorem main_checks_fields (p q : Params) (w : Bool) (h : main_checks p = .ok (q, w)) :
    q.mode = p.mode ∧ q.number_of_frames = p.number_of_frames
      ∧ q.start_frame = p.start_frame - 1 ∧ q.max_iteraction = p.max_iteraction
      ∧ q.reset = p.reset ∧ q.tailstat = p.tailstat
      ∧ p.start_frame ≤ p.number_of_frames ∧ p.start_frame ≠ 0 := by
  unfold main_checks at h
  split at h
  · exact absurd h (by simp)
  · split_ifs at h with h1 h2 h3
    split at h
    · exact absurd h (by simp)
    · simp only [Except.ok.injEq, Prod.mk.injEq] at h
      obtain ⟨hq, -⟩ := h
      subst hq
      exact ⟨rfl, rfl, rfl, rfl, rfl, rfl, by omega, h2⟩

/-- Checked parameters of a request with `1 <= start_frame` are valid for the
loops: `0 <= start_frame < number_of_frames` (zero-based). -/
theorem main_checks_valid (p q : Params) (w : Bool) (hstart : 1 ≤ p.start_frame)
    (h : main_checks p = .ok (q, w)) :
    0 ≤ q.start_frame ∧ q.start_frame < q.number_of_frames := by
  obtain ⟨-, hn, hs, -, -, -, hle, -⟩ := main_checks_fields p q w h
  omega

/-! ## The convergence loop -/

/-- The comparison `a <= b` of two finite doubles. -/
theorem Dbl.le_fin (a b : ℚ) : Dbl.le (Dbl.fin a) (Dbl.fin b) = decide (a ≤ b) := by
  simp only [Dbl.le, Dbl.lt, Dbl.eq]
  rw [Bool.eq_iff_iff]
  simp [le_iff_lt_or_eq]

/-- With a finite observed rate and the counter not above the maximum, the
loop condition of the code fails exactly when the exit test of the
specification holds. -/
theorem loop_again_eq_false_iff {G F : Type} (p : Params) (v : Vars G F) (obs : ℚ)
    (hobs : v.percentage_used = Dbl.fin obs) (hit : v.iteraction ≤ p.max_iteraction) :
    loop_again p v = false ↔ spec_until p v := by
  unfold loop_again spec_until
  rw [hobs]
  cases htol : p.tolerance with
  | fin t =>
    have hC : ¬ v.iteraction < p.max_iteraction ↔ v.iteraction = p.max_iteraction := by omega
    simp only [Dbl.le_fin, Dbl.sub, Dbl.fabs, Dbl.lt, Bool.and_eq_false_imp, Bool.and_eq_true,
      decide_eq_true_eq, decide_eq_false_iff_not, ← hC, not_le, not_lt, and_imp]
    constructor
    · intro h
      by_cases hA : (0 : ℚ) ≤ t
      · by_cases hB : t < |p.ber_rate - obs|
        · exact Or.inr (Or.inr (h hA hB))
        · exact Or.inr (Or.inl (not_lt.mp hB))
      · exact Or.inl (not_le.mp hA)
    · rintro (h | h | h) hA hB
      · exact absurd hA (not_le.mpr h)
      · exact absurd hB (not_lt.mpr h)
      · exact h
  | pinf => simp [Dbl.le, Dbl.lt, Dbl.eq, Dbl.sub, Dbl.fabs]
  | ninf => simp [Dbl.le, Dbl.lt, Dbl.eq, Dbl.sub, Dbl.fabs]
  | nan => simp [Dbl.le, Dbl.lt, Dbl.eq, Dbl.sub, Dbl.fabs]

/-- The `do` loop on valid parameters, entered with the counter below the
maximum (or at its first pass): it ends after `m >= 1` passes, at the first
pass whose result meets the exit test of the specification. -/
theorem do_while_spec {G F : Type} (env : Env G F) (p : Params)
    (hsave : SaveReturnsCount env) (h0 : 0 ≤ p.start_frame)
    (hlt : p.start_frame < p.number_of_frames) :
    ∀ (fuel : Nat) (v : Vars G F), v.iteraction < p.max_iteraction →
      p.max_iteraction - v.iteraction ≤ (fuel : Int) →
      ∃ (m : Nat) (v1 : Vars G F), 1 ≤ m
        ∧ do_while env p fuel v = .ok v1
        ∧ passes env p m v = .ok v1
        ∧ v1.iteraction = v.iteraction + (m : Int)
        ∧ spec_until p v1
        ∧ ∀ (i : Nat) (u : Vars G F), 1 ≤ i → i < m → passes env p i v = .ok u →
            ¬ spec_until p u := by
  intro fuel
  induction fuel with
  | zero =>
    intro v hv hf
    exfalso
    push_cast at hf
    omega
  | succ f ih =>
    intro v hv hf
    obtain ⟨v1, hv1, -, -, hit1, hobs⟩ := iteration_spec env p hsave h0 hlt v
    have hle1 : v1.iteraction ≤ p.max_iteraction := by omega
    have hiff := loop_again_eq_false_iff p v1 _ hobs hle1
    simp only [do_while, hv1]
    by_cases hagain : loop_again p v1 = true
    · rw [if_pos hagain]
      have hnot : ¬ spec_until p v1 := by
        intro hs
        rw [hiff.mpr hs] at hagain
        exact Bool.false_ne_true hagain
      have hlt1 : v1.iteraction < p.max_iteraction := by
        unfold loop_again at hagain
        simp only [Bool.and_eq_true, decide_eq_true_eq] at hagain
        exact hagain.2
      obtain ⟨m, v2, hm, hdo, hpass, hit2, hstop, hmin⟩ :=
        ih v1 hlt1 (by push_cast at hf; omega)
      refine ⟨m + 1, v2, by omega, hdo, ?_, ?_, hstop, ?_⟩
      · simp only [passes, hv1, hpass]
      · rw [hit2, hit1]; push_cast; omega
      · intro i u hi1 hi2 hu
        obtain ⟨k, rfl⟩ : ∃ k, i = k + 1 := ⟨i - 1, by omega⟩
        simp only [passes, hv1] at hu
        cases k with
        | zero =>
          simp only [passes, Except.ok.injEq] at hu
          rw [← hu]
          exact hnot
        | succ k => exact hmin (k + 1) u (by omega) (by omega) hu
    · rw [if_neg hagain]
      have hstop : spec_until p v1 := hiff.mp (by simpa using hagain)
      refine ⟨1, v1, le_refl 1, rfl, ?_, ?_, hstop, ?_⟩
      · simp only [passes, hv1]
      · rw [hit1]; push_cast; rfl
      · intro i u hi1 hi2
        omega

/-- The `do` loop on valid parameters returns, and what it returns is the
result of a pass of its body. -/
theorem do_while_returns {G F : Type} (env : Env G F) (p : Params)
    (hsave : SaveReturnsCount env) (h0 : 0 ≤ p.start_frame)
    (hlt : p.start_frame < p.number_of_frames) :
    ∀ (fuel : Nat) (v : Vars G F), 1 ≤ fuel → p.max_iteraction - v.iteraction ≤ (fuel : Int) →
      ∃ v1 u, do_while env p fuel v = .ok v1 ∧ iteration env p u = .ok v1 := by
  intro fuel
  induction fuel with
  | zero => intro v h1; omega
  | succ f ih =>
    intro v _ hf
    obtain ⟨v1, hv1, -, -, hit1, -⟩ := iteration_spec env p hsave h0 hlt v
    simp only [do_while, hv1]
    by_cases hagain : loop_again p v1 = true
    · rw [if_pos hagain]
      have hlt1 : v1.iteraction < p.max_iteraction := by
        unfold loop_again at hagain
        simp only [Bool.and_eq_true, decide_eq_true_eq] at hagain
        exact hagain.2
      exact ih v1 (by push_cast at hf; omega) (by push_cast at hf; omega)
    · rw [if_neg hagain]
      exact ⟨v1, v, rfl, hv1⟩

/-- A run of `main` on a request with `1 <= start_frame` that passes the
checks, all window writes returning their count: it ends normally with
`generated = number_of_frames` and `processed = number_of_frames -
(start_frame - 1)`. -/
theorem main_run_spec {G F : Type} (env : Env G F) (hsave : SaveReturnsCount env)
    (p q : Params) (w : Bool) (hstart : 1 ≤ p.start_frame)
    (hchk : main_checks p = .ok (q, w)) (eid : G) (file : F) :
    ∃ v1, main env p eid file = Sum.inr (.ok v1)
      ∧ v1.generated = p.number_of_frames
      ∧ v1.processed = p.number_of_frames - (p.start_frame - 1) := by
  obtain ⟨h0, hlt⟩ := main_checks_valid p q w hstart hchk
  obtain ⟨-, hn, hs, -⟩ := main_checks_fields p q w hchk
  have hfuel : (1 : Nat) ≤ (max q.max_iteraction 1).toNat := by omega
  have hfuel2 : q.max_iteraction - (initial_vars eid file).iteraction
      ≤ ((max q.max_iteraction 1).toNat : Int) := by
    simp only [initial_vars]; omega
  obtain ⟨v1, u, hdo, hu⟩ :=
    do_while_returns env q hsave h0 hlt _ (initial_vars eid file) hfuel hfuel2
  obtain ⟨v2, hv2, hg2, hp2, -⟩ := iteration_spec env q hsave h0 hlt u
  rw [hu] at hv2
  simp only [Except.ok.injEq] at hv2
  subst hv2
  refine ⟨v1, ?_, by rw [hg2, hn], by rw [hp2, hn, hs]⟩
  simp only [main, hchk, convergence, hdo]

/-- The checks on a request in mode 'R' or 'F' whose tolerance block passes. -/
theorem main_checks_not_burst (p : Params) (tolerance : Dbl) (hmode : p.mode ≠ Mode.B)
    (hle : p.start_frame ≤ p.number_of_frames) (hne : p.start_frame ≠ 0)
    (hrate : 0 ≤ p.ber_rate)
    (htol : check_tolerance p.number_of_frames p.start_frame p.ber_rate p.tolerance
      = .ok tolerance) :
    main_checks p
      = .ok ({ p with tolerance := tolerance, start_frame := p.start_frame - 1 }, false) := by
  simp only [main_checks, if_neg hmode, if_neg (not_lt.mpr hle), if_neg hne,
    if_neg (not_lt.mpr hrate), htol]

/-- The checks on a request in mode 'R' or 'F' with the tolerance disabled. -/
theorem main_checks_plain (p : Params) (hmode : p.mode ≠ Mode.B)
    (hle : p.start_frame ≤ p.number_of_frames) (hne : p.start_frame ≠ 0)
    (hrate : 0 ≤ p.ber_rate) (htol : p.tolerance = Dbl.fin (-1)) :
    main_checks p = .ok ({ p with start_frame := p.start_frame - 1 }, false) := by
  have hdis : Dbl.le (Dbl.fin 0) (Dbl.fin (-1)) = false := by
    rw [Dbl.le_fin]; simp
  simp only [main_checks, if_neg hmode, if_neg (not_lt.mpr hle), if_neg hne,
    if_neg (not_lt.mpr hrate), check_tolerance, htol, hdis, Bool.false_eq_true, if_false]

/-- The sample save function returns the count it is given. -/
theorem sample_env_saves : SaveReturnsCount sample_env := fun _ _ _ _ _ => rfl

/-! ## The claims -/

/-- C1. For every valid request (`1 <= start_frame`, and the checks passed,
which needs `start_frame <= number_of_frames`) and every pass of the
convergence loop, whatever the variables at its start, if every window write
returns the number of symbols it was given then the pass ends normally with
`generated == number_of_frames`. -/
theorem generated_eq_total_length {G F : Type} (env : Env G F)
    (hsave : SaveReturnsCount env) (p q : Params) (w : Bool) (hstart : 1 ≤ p.start_frame)
    (hchk : main_checks p = .ok (q, w)) (v : Vars G F) :
    ∃ v1, iteration env q v = .ok v1 ∧ v1.generated = p.number_of_frames := by
  obtain ⟨h0, hlt⟩ := main_checks_valid p q w hstart hchk
  obtain ⟨-, hn, -⟩ := main_checks_fields p q w hchk
  obtain ⟨v1, hv1, hg1, -⟩ := iteration_spec env q hsave h0 hlt v
  exact ⟨v1, hv1, by rw [hg1, hn]⟩

/-- C1 at 600 frames starting at frame 300 in mode 'F' (the skip phase ends
and the active phase starts inside a window). -/
theorem generated_eq_total_length_witness :
    ∃ v1, iteration sample_env (default_params Mode.F 600 299 (1 / 10))
        (initial_vars 0 empty_file) = .ok v1 ∧ v1.generated = 600 :=
  generated_eq_total_length sample_env sample_env_saves
    (default_params Mode.F 600 300 (1 / 10)) (default_params Mode.F 600 299 (1 / 10)) false
    (by decide)
    (main_checks_plain (default_params Mode.F 600 300 (1 / 10)) (by decide) (by decide)
      (by decide) (by norm_num [default_params]) rfl)
    (initial_vars 0 empty_file)

/-- C3, as the code has it. For every request with `start_frame ==
number_of_frames` that passes the checks, every window write returning its
count, the run ends normally with `processed == 1`: the frame at position
`start_frame` is itself in the active phase. -/
theorem start_at_last_frame_processed_one {G F : Type} (env : Env G F)
    (hsave : SaveReturnsCount env) (p q : Params) (w : Bool) (hstart : 1 ≤ p.start_frame)
    (hlast : p.start_frame = p.number_of_frames) (hchk : main_checks p = .ok (q, w))
    (eid : G) (file : F) :
    ∃ v1, main env p eid file = Sum.inr (.ok v1) ∧ v1.processed = 1 := by
  obtain ⟨v1, hv1, -, hp⟩ := main_run_spec env hsave p q w hstart hchk eid file
  exact ⟨v1, hv1, by rw [hp]; omega⟩

/-- C3 as the code has it, at 300 frames starting at frame 300. -/
theorem start_at_last_frame_processed_one_witness :
    ∃ v1, main sample_env (default_params Mode.F 300 300 (1 / 10)) 0 empty_file
        = Sum.inr (.ok v1) ∧ v1.processed = 1 :=
  start_at_last_frame_processed_one sample_env sample_env_saves
    (default_params Mode.F 300 300 (1 / 10)) (default_params Mode.F 300 299 (1 / 10)) false
    (by decide) rfl
    (main_checks_plain (default_params Mode.F 300 300 (1 / 10)) (by decide) (by decide)
      (by decide) (by norm_num [default_params]) rfl)
    0 empty_file

/-- C3 as stated fails: with `start_frame = number_of_frames = 5` the run
succeeds and `processed` is not 0. -/
theorem start_at_last_frame_processed_not_zero :
    ∃ v1, main sample_env (default_params Mode.F 5 5 (1 / 10)) 0 empty_file
        = Sum.inr (.ok v1) ∧ v1.processed ≠ 0 := by
  obtain ⟨v1, hv1, -, hp⟩ := main_run_spec sample_env sample_env_saves
    (default_params Mode.F 5 5 (1 / 10)) (default_params Mode.F 5 4 (1 / 10)) false
    (by decide)
    (main_checks_plain (default_params Mode.F 5 5 (1 / 10)) (by decide) (by decide)
      (by decide) (by norm_num [default_params]) rfl)
    0 empty_file
  refine ⟨v1, hv1, ?_⟩
  rw [hp]
  decide

/-- C4 on the code. A start frame of 0 or above the number of frames is
rejected by the checks, but a negative one is not: with `start_frame = -1`
and 10 frames the checks pass (leaving `start_frame = -2`) and the run
writes 10 symbols. -/
theorem negative_start_frame_not_rejected :
    (∀ p : Params, p.start_frame = 0 ∨ p.number_of_frames < p.start_frame →
        ∃ status, main_checks p = .error status)
    ∧ main_checks (default_params Mode.F 10 (-1) (1 / 10))
        = .ok (default_params Mode.F 10 (-2) (1 / 10), false)
    ∧ ∃ v1, main sample_env (default_params Mode.F 10 (-1) (1 / 10)) 0 empty_file
        = Sum.inr (.ok v1) ∧ v1.generated = 10 := by
  have hchk : main_checks (default_params Mode.F 10 (-1) (1 / 10))
      = .ok (default_params Mode.F 10 (-2) (1 / 10), false) :=
    main_checks_plain (default_params Mode.F 10 (-1) (1 / 10)) (by decide) (by decide)
      (by decide) (by norm_num [default_params]) rfl
  refine ⟨?_, hchk, ?_⟩
  · intro p hp
    unfold main_checks
    split
    · exact ⟨_, rfl⟩
    · rcases hp with hp | hp
      · by_cases h1 : p.start_frame > p.number_of_frames
        · exact ⟨1, by rw [if_pos h1]⟩
        · exact ⟨9, by rw [if_neg h1, if_pos hp]⟩
      · exact ⟨1, by rw [if_pos hp]⟩
  · simp only [main, hchk]
    exact ⟨_, rfl, rfl⟩

/-! ## The minimum tolerance -/

/-- The value `min_tol` when `number_of_frames` and `start_frame` differ: the
rounding error of the rate over `number_of_frames - start_frame` symbols
(`start_frame` one-based, as it is when the check runs). -/
theorem min_tol_eq (number_of_frames start_frame : Int) (ber_rate : ℚ)
    (h : number_of_frames ≠ start_frame) :
    min_tol number_of_frames start_frame ber_rate
      = Dbl.fin |((⌊((number_of_frames - start_frame : Int) : ℚ) * ber_rate + 1 / 2⌋ : Int) : ℚ)
          / ((number_of_frames - start_frame : Int) : ℚ) - ber_rate| := by
  have hne : ((number_of_frames - start_frame : Int) : ℚ) ≠ 0 := by
    have : number_of_frames - start_frame ≠ 0 := by omega
    exact_mod_cast this
  simp only [min_tol, Dbl.div, if_neg hne, Dbl.sub, Dbl.fabs]

/-- The code computes the formula of the specification for the start index
one higher: its denominator is `number_of_frames - start_frame`, one less
than the length of the active phase. -/
theorem min_tol_eq_spec_shifted (number_of_frames start_frame : Int) (ber_rate : ℚ)
    (h : number_of_frames ≠ start_frame) :
    min_tol number_of_frames start_frame ber_rate
      = Dbl.fin (spec_min_tol number_of_frames (start_frame + 1) ber_rate) := by
  rw [min_tol_eq _ _ _ h, spec_min_tol, round_eq]
  simp only [add_sub_cancel_right]

/-- The value `min_tol` when `start_frame = number_of_frames`: the division
`0 / 0`, not a number. -/
theorem min_tol_nan (number_of_frames : Int) (ber_rate : ℚ) :
    min_tol number_of_frames number_of_frames ber_rate = Dbl.nan := by
  have hfl : ⌊(0 : ℚ) * ber_rate + 1 / 2⌋ = 0 := by
    rw [Int.floor_eq_iff]
    norm_num
  simp only [min_tol, Dbl.div, sub_self, Int.cast_zero, hfl, if_true, Dbl.sub, Dbl.fabs]

/-- C5 on the code. For 100 symbols from start index 1 at rate 0.10 the
specification's formula (over the 100 active symbols) gives 0, the code
computes `|round(99 * 0.10) / 99 - 0.10| = 1/990`. -/
theorem min_tol_denominator_one_short :
    spec_min_tol 100 1 (1 / 10) = 0 ∧ min_tol 100 1 (1 / 10) = Dbl.fin (1 / 990) := by
  constructor
  · rw [spec_min_tol, round_eq]
    norm_num
  · rw [min_tol_eq _ _ _ (by decide)]
    norm_num [abs_of_nonneg]

/-- The checks on the request of 3 frames from start frame 1 at rate 0.5 in
mode 'F' with the tolerance given as 0: they pass and settle the tolerance at
`min_tol = |round (2 * 0.5) / 2 - 0.5| = 0`. -/
theorem main_checks_three_frames :
    main_checks three_frames_request = .ok (three_frames_checked, false) := by
  have hm : min_tol 3 1 (1 / 2) = Dbl.fin 0 := by
    rw [min_tol_eq _ _ _ (by decide)]
    norm_num
  have hen : Dbl.le (Dbl.fin 0) (Dbl.fin 0) = true := by rw [Dbl.le_fin]; simp
  have hct : check_tolerance 3 1 (1 / 2) (Dbl.fin 0) = .ok (Dbl.fin 0) := by
    simp only [check_tolerance, hen, Dbl.eq, hm, decide_True, if_true]
  exact main_checks_not_burst
    { default_params Mode.F 3 1 (1 / 2) with tolerance := Dbl.fin 0 } (Dbl.fin 0)
    (by decide) (by decide) (by decide) (by norm_num [default_params]) hct

/-- No count `d` of disturbed frames out of 3 gives the rate 0.5 exactly. -/
theorem half_not_thirds (d : Int) : ¬ (|(1 / 2 : ℚ) - (d : ℚ) / 3| ≤ 0) := by
  intro hd
  have h0 : (1 / 2 : ℚ) - (d : ℚ) / 3 = 0 := abs_eq_zero.mp (le_antisymm hd (abs_nonneg _))
  have h1 : (2 : ℚ) * d = 3 := by linarith
  have h2 : (2 : Int) * d = 3 := by exact_mod_cast h1
  omega

/-! ## The Bellcore rate -/

/-- The active loop of modes 'F' and 'B' keeps `disturbed` a whole number. -/
theorem active_loop_FB_disturbed_int {G F : Type} (env : Env G F) (p : Params) :
    ∀ (fuel : Nat) (i : Int) (v v1 : Vars G F), active_loop_FB env p fuel i v = .ok v1 →
      (∃ d : Int, v.disturbed = (d : ℚ)) → ∃ d : Int, v1.disturbed = (d : ℚ) := by
  intro fuel
  induction fuel with
  | zero =>
    intro i v v1 h hd
    simp only [active_loop_FB] at h
    split_ifs at h
    simp only [Except.ok.injEq] at h
    rw [← h]
    exact hd
  | succ f ih =>
    intro i v v1 h hd
    by_cases hlt : i < p.number_of_frames
    · simp only [active_loop_FB, if_pos hlt] at h
      generalize (if i + EID_BUFFER_LENGTH > p.number_of_frames
        then p.number_of_frames - v.generated else EID_BUFFER_LENGTH) = k at h
      generalize (if p.mode = Mode.F then run_FER_generator_random env v.error_pat v.eid k
        else run_FER_generator_burst env v.error_pat v.eid k) = r at h
      cases r with
      | none => exact absurd h (by simp)
      | some made =>
        simp only at h
        split_ifs at h with hneg
        refine ih _ _ _ h ?_
        obtain ⟨d, hd⟩ := hd
        exact ⟨d + made.1, by simp only [hd]; push_cast; rfl⟩
    · simp only [active_loop_FB, if_neg hlt, Except.ok.injEq] at h
      rw [← h]
      exact hd

/-- In modes 'F' and 'B' a pass on valid parameters ends with `disturbed` a
whole number. -/
theorem iteration_FB_disturbed_int {G F : Type} (env : Env G F) (p : Params)
    (hsave : SaveReturnsCount env) (h0 : 0 ≤ p.start_frame) (hmode : p.mode ≠ Mode.R)
    (v v1 : Vars G F) (h : iteration env p v = .ok v1) :
    ∃ d : Int, v1.disturbed = (d : ℚ) := by
  unfold iteration at h
  split at h
  · exact absurd h (by simp)
  · rename_i v2 hgen
    simp only [Except.ok.injEq] at h
    rw [← h]
    simp only
    unfold generate at hgen
    split at hgen
    · rename_i hR
      exact absurd hR hmode
    · have hfs : p.start_frame - 0 ≤ 256 * (p.start_frame.toNat : Int) := by
        rw [Int.toNat_of_nonneg h0]; omega
      obtain ⟨v3, hv3, -, -, -, hd3, -⟩ :=
        skip_loop_FB_spec env p hsave p.start_frame.toNat 0
          (if p.mode = Mode.B ∧ p.reset = true
            then { ({ v with iteraction := v.iteraction + 1,
                             out_file_ptr := env.fseek v.out_file_ptr, ber1 := 0,
                             processed := 0, generated := 0, disturbed := 0 } : Vars G F) with
                   eid := env.reset_burst_eid v.eid }
            else { v with iteraction := v.iteraction + 1,
                          out_file_ptr := env.fseek v.out_file_ptr, ber1 := 0,
                          processed := 0, generated := 0, disturbed := 0 })
          (le_refl 0) (dvd_zero 256) h0 hfs
      rw [hv3] at hgen
      refine active_loop_FB_disturbed_int env p _ _ v3 v2 hgen ⟨0, ?_⟩
      rw [hd3]
      split_ifs <;> simp

/-- C7 on the code. With 3 frames from start frame 1 at rate 0.5 in mode 'F'
and the tolerance given as 0, the checks pass and settle the tolerance at
`min_tol = 0`; no count `d` of disturbed frames gives `|0.5 - d / 3| <= 0`;
so, whatever the device produces, the run makes all 100 passes and ends with
an observed rate `d / 3` that does not meet the tolerance. -/
theorem settled_tolerance_not_attainable {G F : Type} (env : Env G F)
    (hsave : SaveReturnsCount env) (eid : G) (file : F) :
    main_checks three_frames_request = .ok (three_frames_checked, false)
    ∧ three_frames_checked.tolerance = Dbl.fin 0
    ∧ (∀ d : Int, ¬ (|(1 / 2 : ℚ) - (d : ℚ) / 3| ≤ 0))
    ∧ ∃ v1, main env three_frames_request eid file = Sum.inr (.ok v1)
        ∧ v1.iteraction = 100
        ∧ ∃ d : Int, v1.percentage_used = Dbl.fin ((d : ℚ) / 3)
            ∧ ¬ (|(1 / 2 : ℚ) - (d : ℚ) / 3| ≤ 0) := by
  refine ⟨main_checks_three_frames, rfl, half_not_thirds, ?_⟩
  have h0 : (0 : Int) ≤ three_frames_checked.start_frame := by decide
  have hlt : three_frames_checked.start_frame < three_frames_checked.number_of_frames := by
    decide
  have hi0 : (initial_vars eid file).iteraction < three_frames_checked.max_iteraction := by
    show (0 : Int) < 100
    decide
  have hf0 : three_frames_checked.max_iteraction - (initial_vars eid file).iteraction
      ≤ ((100 : Nat) : Int) := by
    show (100 : Int) - 0 ≤ ((100 : Nat) : Int)
    decide
  obtain ⟨m, v1, -, hdo, -, hit, hstop, -⟩ :=
    do_while_spec env three_frames_checked hsave h0 hlt 100 (initial_vars eid file) hi0 hf0
  obtain ⟨v2, u, hdo2, hu⟩ :=
    do_while_returns env three_frames_checked hsave h0 hlt 100 (initial_vars eid file)
      (by decide) hf0
  rw [hdo] at hdo2
  simp only [Except.ok.injEq] at hdo2
  subst hdo2
  obtain ⟨v3, hv3, -, -, -, hobs⟩ := iteration_spec env three_frames_checked hsave h0 hlt u
  rw [hu] at hv3
  simp only [Except.ok.injEq] at hv3
  subst hv3
  obtain ⟨d, hd⟩ :=
    iteration_FB_disturbed_int env three_frames_checked hsave h0 (by decide) u v1 hu
  have hobs1 : v1.percentage_used = Dbl.fin ((d : ℚ) / 3) := by
    rw [hobs, hd]
    simp [three_frames_checked, default_params]
  have hmain : main env three_frames_request eid file
      = Sum.inr (convergence env three_frames_checked eid file) := by
    simp only [main, main_checks_three_frames]
  refine ⟨v1, ?_, ?_, d, hobs1, half_not_thirds d⟩
  · rw [hmain]
    exact congrArg Sum.inr hdo
  · rcases hstop with hs | hs | hs
    · exact absurd hs (by simp [three_frames_checked, default_params, Dbl.le_fin])
    · exfalso
      rw [hobs1] at hs
      simp only [three_frames_checked, default_params, Dbl.sub, Dbl.fabs, Dbl.le_fin,
        decide_eq_true_eq] at hs
      exact half_not_thirds d hs
    · exact hs

/-- C7 on the code, in the sample environment. -/
theorem settled_tolerance_not_attainable_witness :
    ∃ v1, main sample_env three_frames_request 0 empty_file = Sum.inr (.ok v1)
        ∧ v1.iteraction = 100
        ∧ ∃ d : Int, v1.percentage_used = Dbl.fin ((d : ℚ) / 3)
            ∧ ¬ (|(1 / 2 : ℚ) - (d : ℚ) / 3| ≤ 0) :=
  (settled_tolerance_not_attainable sample_env sample_env_saves 0 empty_file).2.2.2

/-! ## The zero denominator of the minimum tolerance -/

/-- The tolerance block on a positive tolerance when `min_tol` is not a
number: every tolerance passes. -/
theorem check_tolerance_nan (number_of_frames start_frame : Int) (ber_rate t : ℚ)
    (ht : 0 < t) (hm : min_tol number_of_frames start_frame ber_rate = Dbl.nan) :
    check_tolerance number_of_frames start_frame ber_rate (Dbl.fin t) = .ok (Dbl.fin t) := by
  have hen : Dbl.le (Dbl.fin 0) (Dbl.fin t) = true := by
    rw [Dbl.le_fin]; simpa using le_of_lt ht
  have hz : Dbl.eq (Dbl.fin t) (Dbl.fin 0) = false := by
    simp only [Dbl.eq]; simpa using ne_of_gt ht
  simp only [check_tolerance, hen, hz, hm, Dbl.lt, if_true, Bool.false_eq_true, if_false]

/-- The tolerance block on the tolerance 0: the tolerance becomes `min_tol`. -/
theorem check_tolerance_zero (number_of_frames start_frame : Int) (ber_rate : ℚ) :
    check_tolerance number_of_frames start_frame ber_rate (Dbl.fin 0)
      = .ok (min_tol number_of_frames start_frame ber_rate) := by
  have hen : Dbl.le (Dbl.fin 0) (Dbl.fin 0) = true := by rw [Dbl.le_fin]; simp
  simp only [check_tolerance, hen, Dbl.eq, decide_True, if_true]

/-- C19 on the code. Whenever `start_frame = number_of_frames` the
denominator `number_of_frames - start_frame` of the minimum tolerance is 0
and `min_tol` is `0 / 0`, not a number.  With 5 frames from start frame 5
(a start frame inside 1 .. 5) the checks pass all the same: the tolerance 0
is settled at not-a-number, and the tolerance 0.000001 is accepted. -/
theorem min_tol_divides_by_zero :
    (∀ (number_of_frames : Int) (ber_rate : ℚ),
        number_of_frames - number_of_frames = 0
        ∧ min_tol number_of_frames number_of_frames ber_rate = Dbl.nan)
    ∧ main_checks { default_params Mode.F 5 5 (1 / 10) with tolerance := Dbl.fin 0 }
        = .ok ({ default_params Mode.F 5 4 (1 / 10) with tolerance := Dbl.nan }, false)
    ∧ main_checks { default_params Mode.F 5 5 (1 / 10) with tolerance := Dbl.fin (1 / 1000000) }
        = .ok ({ default_params Mode.F 5 4 (1 / 10) with tolerance := Dbl.fin (1 / 1000000) },
            false) := by
  refine ⟨fun n r => ⟨sub_self n, min_tol_nan n r⟩, ?_, ?_⟩
  · have hct : check_tolerance 5 5 (1 / 10) (Dbl.fin 0) = .ok Dbl.nan := by
      rw [check_tolerance_zero, min_tol_nan]
    exact main_checks_not_burst
      { default_params Mode.F 5 5 (1 / 10) with tolerance := Dbl.fin 0 } Dbl.nan
      (by decide) (by decide) (by decide) (by norm_num [default_params]) hct
  · exact main_checks_not_burst
      { default_params Mode.F 5 5 (1 / 10) with tolerance := Dbl.fin (1 / 1000000) }
      (Dbl.fin (1 / 1000000))
      (by decide) (by decide) (by decide) (by norm_num [default_params])
      (check_tolerance_nan 5 5 (1 / 10) (1 / 1000000) (by norm_num) (min_tol_nan 5 (1 / 10)))

/-! ## The tail rate -/

/-- One pass of the convergence loop on valid parameters ends with the tail
rate `disturbed / processed` finite. -/
theorem iteration_tail_rate {G F : Type} (env : Env G F) (p : Params)
    (hsave : SaveReturnsCount env) (h0 : 0 ≤ p.start_frame)
    (hlt : p.start_frame < p.number_of_frames) (v : Vars G F) :
    ∃ v1, iteration env p v = .ok v1
      ∧ v1.processed = p.number_of_frames - p.start_frame
      ∧ v1.percentage_proc = Dbl.fin (v1.disturbed / (v1.processed : ℚ)) := by
  obtain ⟨v1, hv1, -, hp1, -⟩ := generate_spec env p hsave h0 hlt
    { v with iteraction := v.iteraction + 1, out_file_ptr := env.fseek v.out_file_ptr,
             ber1 := 0, processed := 0, generated := 0, disturbed := 0 } rfl rfl
  unfold iteration
  simp only [hv1]
  refine ⟨_, rfl, hp1, ?_⟩
  have hA : (v1.processed : ℚ) ≠ 0 := by
    have : v1.processed ≠ 0 := by omega
    exact_mod_cast this
  simp only [Dbl.div, if_neg hA]

/-- C16 on the code. For a request with `1 <= start_frame` that passes the
checks every pass ends with `processed >= 1` and a finite tail rate.  But the
checks also accept the request of 0 frames from start frame -1 (see C4); its
pass ends normally with `processed = 0`, and the tail rate, the rate used
with `-tailstat`, is `0 / 0`, not a number. -/
theorem tail_rate_not_a_number :
    (∀ (G F : Type) (env : Env G F) (p q : Params) (w : Bool), SaveReturnsCount env →
        1 ≤ p.start_frame → main_checks p = .ok (q, w) → ∀ v : Vars G F,
        ∃ v1, iteration env q v = .ok v1 ∧ 1 ≤ v1.processed
          ∧ v1.percentage_proc = Dbl.fin (v1.disturbed / (v1.processed : ℚ)))
    ∧ main_checks { default_params Mode.F 0 (-1) (1 / 10) with tailstat := true }
        = .ok ({ default_params Mode.F 0 (-2) (1 / 10) with tailstat := true }, false)
    ∧ ∃ v1, iteration sample_env { default_params Mode.F 0 (-2) (1 / 10) with tailstat := true }
          (initial_vars 0 empty_file) = .ok v1
        ∧ v1.processed = 0 ∧ v1.percentage_proc = Dbl.nan
        ∧ v1.percentage_used = Dbl.nan := by
  refine ⟨?_, ?_, ?_⟩
  · intro G F env p q w hsave hstart hchk v
    obtain ⟨h0, hlt⟩ := main_checks_valid p q w hstart hchk
    obtain ⟨v1, hv1, hp1, hr1⟩ := iteration_tail_rate env q hsave h0 hlt v
    exact ⟨v1, hv1, by omega, hr1⟩
  · exact main_checks_plain { default_params Mode.F 0 (-1) (1 / 10) with tailstat := true }
      (by decide) (by decide) (by decide) (by norm_num [default_params]) rfl
  · obtain ⟨u, hu, hp, hd⟩ : ∃ u,
        generate sample_env { default_params Mode.F 0 (-2) (1 / 10) with tailstat := true }
            { initial_vars 0 empty_file with
              iteraction := (initial_vars 0 empty_file).iteraction + 1,
              out_file_ptr := sample_env.fseek (initial_vars 0 empty_file).out_file_ptr,
              ber1 := 0, processed := 0, generated := 0, disturbed := 0 } = .ok u
          ∧ u.processed = 0 ∧ u.disturbed = 0 + ((0 : Int) : ℚ) := ⟨_, rfl, rfl, rfl⟩
    simp only [iteration, hu]
    refine ⟨_, rfl, hp, ?_, ?_⟩
    · simp [hp, hd, Dbl.div]
    · simp [hp, hd, Dbl.div, default_params]

/-! ## A window write that fails -/

/-- C12 on the code. In the skip loop of mode 'R' a negative item count ends
the run at once, with status 8 and the counters untouched; the skip loop of
modes 'F' and 'B' adds the item count to `generated` unchecked and goes on.
With 3 frames from frame 2 and a save function that always fails, mode 'R'
stops at the first write with no bit generated, while mode 'F' goes on after
the failed skip write to generate a window of 4 frames (with `generated =
-1`) and stops only at the next write; with a save function whose first
write alone fails, the run in mode 'F' ends normally, 4 frames processed. -/
theorem skip_write_failure_ignored :
    (∀ (G F : Type) (env : Env G F) (p : Params) (fuel : Nat) (i : Int) (v : Vars G F),
        i < p.start_frame →
        (env.save_data v.error_pat
          (if i + EID_BUFFER_LENGTH > p.start_frame
            then Int.tmod p.start_frame EID_BUFFER_LENGTH else EID_BUFFER_LENGTH)
          v.out_file_ptr).2 < 0 →
        skip_loop_R env p (fuel + 1) i v
          = .error (.exit 8
              { v with out_file_ptr := (env.save_data v.error_pat
                  (if i + EID_BUFFER_LENGTH > p.start_frame
                    then Int.tmod p.start_frame EID_BUFFER_LENGTH else EID_BUFFER_LENGTH)
                  v.out_file_ptr).1 }))
    ∧ (∀ (G F : Type) (env : Env G F) (p : Params) (fuel : Nat) (i : Int) (v : Vars G F),
        i < p.start_frame →
        skip_loop_FB env p (fuel + 1) i v
          = skip_loop_FB env p fuel (i + EID_BUFFER_LENGTH)
              { v with
                out_file_ptr := (env.save_data (frame_okay p.mode)
                  (if i + EID_BUFFER_LENGTH > p.start_frame
                    then Int.tmod p.start_frame EID_BUFFER_LENGTH else EID_BUFFER_LENGTH)
                  v.out_file_ptr).1,
                generated := v.generated + (env.save_data (frame_okay p.mode)
                  (if i + EID_BUFFER_LENGTH > p.start_frame
                    then Int.tmod p.start_frame EID_BUFFER_LENGTH else EID_BUFFER_LENGTH)
                  v.out_file_ptr).2 })
    ∧ (∃ v, iteration failing_env (default_params Mode.R 3 1 (1 / 10))
          (initial_vars 0 empty_file) = .error (.exit 8 v)
        ∧ v.generated = 0 ∧ v.eid = 0)
    ∧ (∃ v, iteration failing_env (default_params Mode.F 3 1 (1 / 10))
          (initial_vars 0 empty_file) = .error (.exit 8 v)
        ∧ v.generated = -1 ∧ v.eid = 4)
    ∧ (∃ v, iteration first_write_fails_env (default_params Mode.F 3 1 (1 / 10))
          (initial_vars 0 empty_file) = .ok v
        ∧ v.generated = 3 ∧ v.processed = 4 ∧ v.eid = 4) := by
  refine ⟨?_, ?_, ⟨_, rfl, rfl, rfl⟩, ⟨_, rfl, rfl, rfl⟩, ⟨_, rfl, rfl, rfl, rfl⟩⟩
  · intro G F env p fuel i v hlt hneg
    simp only [skip_loop_R, if_pos hlt, if_pos hneg]
  · intro G F env p fuel i v hlt
    simp only [skip_loop_FB, if_pos hlt]

/-! ## The reset between passes -/

/-- The skip loop of mode 'R' reads only `start_frame` of the parameters. -/
theorem skip_loop_R_params {G F : Type} (env : Env G F) (p p1 : Params)
    (hs : p1.start_frame = p.start_frame) :
    ∀ (fuel : Nat) (i : Int) (v : Vars G F),
      skip_loop_R env p1 fuel i v = skip_loop_R env p fuel i v := by
  intro fuel
  induction fuel with
  | zero => intro i v; simp only [skip_loop_R, hs]
  | succ f ih => intro i v; simp only [skip_loop_R, hs, ih]

/-- The skip loop of modes 'F' and 'B' reads only `start_frame` and `mode`
of the parameters. -/
theorem skip_loop_FB_params {G F : Type} (env : Env G F) (p p1 : Params)
    (hs : p1.start_frame = p.start_frame) (hm : p1.mode = p.mode) :
    ∀ (fuel : Nat) (i : Int) (v : Vars G F),
      skip_loop_FB env p1 fuel i v = skip_loop_FB env p fuel i v := by
  intro fuel
  induction fuel with
  | zero => intro i v; simp only [skip_loop_FB, hs]
  | succ f ih => intro i v; simp only [skip_loop_FB, hs, hm, ih]

/-- The active loop of mode 'R' reads only `number_of_frames` of the
parameters. -/
theorem active_loop_R_params {G F : Type} (env : Env G F) (p p1 : Params)
    (hn : p1.number_of_frames = p.number_of_frames) :
    ∀ (fuel : Nat) (i : Int) (v : Vars G F),
      active_loop_R env p1 fuel i v = active_loop_R env p fuel i v := by
  intro fuel
  induction fuel with
  | zero => intro i v; simp only [active_loop_R, hn]
  | succ f ih => intro i v; simp only [active_loop_R, hn, ih]

/-- The active loop of modes 'F' and 'B' reads only `number_of_frames` and
`mode` of the parameters. -/
theorem active_loop_FB_params {G F : Type} (env : Env G F) (p p1 : Params)
    (hn : p1.number_of_frames = p.number_of_frames) (hm : p1.mode = p.mode) :
    ∀ (fuel : Nat) (i : Int) (v : Vars G F),
      active_loop_FB env p1 fuel i v = active_loop_FB env p fuel i v := by
  intro fuel
  induction fuel with
  | zero => intro i v; simp only [active_loop_FB, hn]
  | succ f ih => intro i v; simp only [active_loop_FB, hn, hm, ih]

/-- C11, as the code has it. A pass of the convergence loop with `reset`
set is the pass without `reset` started from `reset_burst_eid (eid)` in
mode 'B', and started from the state `eid` that the pass before left, left
as it is, in modes 'R' and 'F': the device is reset in burst mode only. -/
theorem reset_in_burst_mode_only {G F : Type} (env : Env G F) (p : Params) (v : Vars G F) :
    iteration env p v
      = iteration env { p with reset := false }
          (if p.mode = Mode.B ∧ p.reset = true
            then { v with eid := env.reset_burst_eid v.eid } else v) := by
  have hskR := skip_loop_R_params env p { p with reset := false } rfl
  have hskFB := skip_loop_FB_params env p { p with reset := false } rfl rfl
  have hacR := active_loop_R_params env p { p with reset := false } rfl
  have hacFB := active_loop_FB_params env p { p with reset := false } rfl rfl
  unfold iteration generate
  simp only [hskR, hskFB, hacR, hacFB]
  cases hm : p.mode with
  | R => simp
  | F => simp
  | B =>
    by_cases hr : p.reset = true
    · simp [hr]
    · simp [hr]

/-- C11 as stated fails in mode 'F': with `reset` set and 4 frames, the
first pass leaves the device in state 4; the second pass writes the frames
drawn from state 4, not those that a pass from the reset state 0 writes. -/
theorem second_pass_not_reset_in_mode_F :
    ∃ v1 v2 v3,
      iteration sample_env { default_params Mode.F 4 0 (1 / 10) with reset := true }
          (initial_vars 0 empty_file) = .ok v1
      ∧ iteration sample_env { default_params Mode.F 4 0 (1 / 10) with reset := true } v1
          = .ok v2
      ∧ iteration sample_env { default_params Mode.F 4 0 (1 / 10) with reset := true }
          { v1 with eid := sample_env.reset_burst_eid v1.eid } = .ok v3
      ∧ v1.eid = 4 ∧ sample_env.reset_burst_eid v1.eid = 0
      ∧ v2.out_file_ptr.data = [G192_SYNC, G192_FER, G192_SYNC, G192_SYNC]
      ∧ v3.out_file_ptr.data = [G192_SYNC, G192_SYNC, G192_FER, G192_SYNC] :=
  ⟨_, _, _, rfl, rfl, rfl, rfl, rfl, rfl, rfl⟩

/-! ## The frame erasure generator run `n` times -/

theorem draw_codes_length {G : Type} (gen : G → G × Int) :
    ∀ (n : Nat) (state : G), (draw_codes gen n state).length = n := by
  intro n
  induction n with
  | zero => intro state; rfl
  | succ k ih => intro state; simp only [draw_codes, List.length_cons, ih]

/-- The code at place `i` is the one of call number `i`, made in the state
that `i` calls leave. -/
theorem draw_codes_getElem? {G : Type} (gen : G → G × Int) :
    ∀ (n : Nat) (state : G) (i : Nat), i < n →
      (draw_codes gen n state)[i]?
        = some (if (gen (draw_state gen i state)).2 ≠ 0 then G192_FER else G192_SYNC) := by
  intro n
  induction n with
  | zero => intro state i hi; omega
  | succ k ih =>
    intro state i hi
    cases i with
    | zero => simp only [draw_codes, draw_state, List.getElem?_cons_zero]
    | succ j =>
      simp only [draw_codes, draw_state, List.getElem?_cons_succ]
      exact ih _ j (by omega)

/-- A buffer with entry `i` set, cut after that entry. -/
theorem take_succ_set {α : Type} (l : List α) (i : Nat) (a : α) (h : i < l.length) :
    (l.set i a).take (i + 1) = l.take i ++ [a] := by
  rw [List.take_succ, List.getElem?_set_self h, List.set_take,
    List.set_eq_of_length_le (by simp)]
  rfl

/-- The loop of `run_FER_generator_*` from index `i` on: it returns, having
called the device `n - i` times, stored the codes at the places `i .. n-1`
and counted the erasures. -/
theorem run_FER_loop_spec {G : Type} (gen : G → G × Int) (n : Int) :
    ∀ (fuel : Nat) (i count : Int) (patt : List Int) (state : G), 0 ≤ i → i ≤ n →
      n ≤ (patt.length : Int) → n - i ≤ (fuel : Int) →
      run_FER_loop gen n fuel i count patt state
        = some (count + (List.count G192_FER (draw_codes gen (n - i).toNat state) : Int),
            patt.take i.toNat ++ draw_codes gen (n - i).toNat state ++ patt.drop n.toNat,
            draw_state gen (n - i).toNat state) := by
  intro fuel
  induction fuel with
  | zero =>
    intro i count patt state h0 hle hbuf hf
    have hi : i = n := by push_cast at hf; omega
    subst hi
    simp [run_FER_loop, draw_codes, draw_state]
  | succ f ih =>
    intro i count patt state h0 hle hbuf hf
    by_cases hlt : i < n
    · have hm : (n - i).toNat = (n - (i + 1)).toNat + 1 := by omega
      have hi1 : (i + 1).toNat = i.toNat + 1 := by omega
      have hil : i.toNat < patt.length := by omega
      have hin : i.toNat < n.toNat := by omega
      simp only [run_FER_loop, if_pos hlt]
      rw [ih (i + 1) _ _ _ (by omega) (by omega) (by rw [List.length_set]; exact hbuf)
        (by push_cast at hf; omega)]
      rw [hm, hi1, take_succ_set _ _ _ hil, List.drop_set_of_lt _ _ hin]
      simp only [draw_codes, draw_state, List.append_assoc, List.singleton_append,
        List.count_cons]
      by_cases hfer : (gen state).2 = 0
      · simp [hfer, G192_FER, G192_SYNC]
      · simp [hfer, G192_FER, G192_SYNC]
        omega
    · have hi : i = n := by omega
      subst hi
      simp [run_FER_loop, draw_codes, draw_state]

/-- What `run_FER_generator_*` returns for a device `gen`, a count `n >= 0`
and a buffer of at least `n` entries. -/
theorem run_FER_loop_result {G : Type} (gen : G → G × Int) (patt : List Int) (state : G)
    (n : Int) (hn : 0 ≤ n) (hbuf : n ≤ (patt.length : Int)) :
    ∃ (count : Int) (patt1 : List Int),
      run_FER_loop gen n n.toNat 0 0 patt state = some (count, patt1, draw_state gen n.toNat state)
      ∧ patt1 = draw_codes gen n.toNat state ++ patt.drop n.toNat
      ∧ (∀ i : Nat, i < n.toNat →
          patt1[i]? = some (if (gen (draw_state gen i state)).2 ≠ 0 then G192_FER
                            else G192_SYNC))
      ∧ patt1.drop n.toNat = patt.drop n.toNat
      ∧ patt1.length = patt.length
      ∧ count = (List.count G192_FER (patt1.take n.toNat) : Int) := by
  have h := run_FER_loop_spec gen n n.toNat 0 0 patt state (le_refl 0) hn hbuf (by omega)
  simp only [sub_zero, Int.toNat_zero, List.take_zero, List.nil_append, zero_add] at h
  have hlen := draw_codes_length gen n.toNat state
  refine ⟨_, _, h, rfl, ?_, ?_, ?_, ?_⟩
  · intro i hi
    rw [List.getElem?_append_left (by rw [hlen]; exact hi)]
    exact draw_codes_getElem? gen n.toNat state i hi
  · rw [List.drop_append_of_le_length (by rw [hlen]), List.drop_of_length_le (by rw [hlen])]
    rfl
  · rw [List.length_append, hlen, List.length_drop]
    omega
  · rw [List.take_append_of_le_length (by rw [hlen]), List.take_of_length_le (by rw [hlen])]

/-- C15. `run_FER_generator_random` and `run_FER_generator_burst`, called
with `n >= 0` and a buffer of at least `n` entries, return; the device is
left in the state that `n` calls in a row leave; entry `i < n` of the buffer
holds `G192_FER` (0x6B20) when call number `i` gave a non-zero result and
`G192_SYNC` (0x6B21) otherwise; the entries from `n` on and the length of the
buffer are unchanged; the value returned is the number of entries among the
first `n` that are `G192_FER`. -/
theorem run_FER_generator_counts_erasures {G F : Type} (env : Env G F) (patt : List Int)
    (state : G) (n : Int) (hn : 0 ≤ n) (hbuf : n ≤ (patt.length : Int)) :
    (∃ (count : Int) (patt1 : List Int),
      run_FER_generator_random env patt state n
        = some (count, patt1, draw_state env.FER_generator_random n.toNat state)
      ∧ (∀ i : Nat, i < n.toNat →
          patt1[i]? = some
            (if (env.FER_generator_random
                  (draw_state env.FER_generator_random i state)).2 ≠ 0
              then G192_FER else G192_SYNC))
      ∧ patt1.drop n.toNat = patt.drop n.toNat
      ∧ patt1.length = patt.length
      ∧ count = (List.count G192_FER (patt1.take n.toNat) : Int))
    ∧ (∃ (count : Int) (patt1 : List Int),
      run_FER_generator_burst env patt state n
        = some (count, patt1, draw_state env.FER_generator_burst n.toNat state)
      ∧ (∀ i : Nat, i < n.toNat →
          patt1[i]? = some
            (if (env.FER_generator_burst
                  (draw_state env.FER_generator_burst i state)).2 ≠ 0
              then G192_FER else G192_SYNC))
      ∧ patt1.drop n.toNat = patt.drop n.toNat
      ∧ patt1.length = patt.length
      ∧ count = (List.count G192_FER (patt1.take n.toNat) : Int))
    ∧ G192_FER = 0x6B20 ∧ G192_SYNC = 0x6B21 := by
  refine ⟨?_, ?_, rfl, rfl⟩
  · obtain ⟨count, patt1, h, -, h2, h3, h4, h5⟩ :=
      run_FER_loop_result env.FER_generator_random patt state n hn hbuf
    exact ⟨count, patt1, h, h2, h3, h4, h5⟩
  · obtain ⟨count, patt1, h, -, h2, h3, h4, h5⟩ :=
      run_FER_loop_result env.FER_generator_burst patt state n hn hbuf
    exact ⟨count, patt1, h, h2, h3, h4, h5⟩

/-- C15 in the sample environment: 4 calls from state 1 into the buffer of
256 entries. -/
theorem run_FER_generator_counts_erasures_witness :
    ∃ (count : Int) (patt1 : List Int),
      run_FER_generator_random sample_env (List.replicate 256 0) 1 4
        = some (count, patt1, draw_state sample_env.FER_generator_random 4 1)
      ∧ patt1.length = 256
      ∧ count = (List.count G192_FER (patt1.take 4) : Int) := by
  obtain ⟨count, patt1, h, -, -, h4, h5⟩ :=
    (run_FER_generator_counts_erasures sample_env (List.replicate 256 0) 1 4 (by decide)
      (by rw [List.length_replicate]; decide)).1
  exact ⟨count, patt1, h, by rw [h4, List.length_replicate], h5⟩

/-! ## The compact format and the windows -/

/-- C14 on the code, with `save_bit` as the specification describes it. With
10 frames from start frame 4 and every frame erased, the stream is 3 good
frames followed by 7 erased ones; as one bit stream it is the bytes 0xF8,
0x03, but the run writes the skip window of 3 frames as a byte of its own
and the active window of 7 frames as the next: 0x00, 0x7F.  Frame number 3
is bit 0 of byte 1, not bit 3 of byte 0.  With 16 frames from start frame 2
the run writes 3 bytes where `ceil (16 / 8)` is 2. -/
theorem compact_windows_padded :
    (∃ v1 v2,
      iteration erasing_env (default_params Mode.F 10 3 (1 / 10)) (initial_vars 0 empty_file)
        = .ok v1
      ∧ iteration compact_env (default_params Mode.F 10 3 (1 / 10)) (initial_vars 0 empty_file)
        = .ok v2
      ∧ v1.out_file_ptr.data = List.replicate 3 G192_SYNC ++ List.replicate 7 G192_FER
      ∧ pack_bits v1.out_file_ptr.data = [0xF8, 0x03]
      ∧ v2.out_file_ptr.data = [0x00, 0x7F])
    ∧ (∃ v2,
      iteration compact_env (default_params Mode.F 16 1 (1 / 10)) (initial_vars 0 empty_file)
        = .ok v2
      ∧ v2.out_file_ptr.data.length = 3 ∧ (16 + 7) / 8 = 2) :=
  ⟨⟨_, _, rfl, rfl, rfl, rfl, rfl⟩, ⟨_, rfl, rfl, rfl⟩⟩

/-! ## The loops with a parameter and the loops of `main` -/

theorem skip_loop_R_W_eq {G F : Type} (env : Env G F) (p : Params) :
    ∀ (fuel : Nat) (i : Int) (v : Vars G F),
      skip_loop_R_W EID_BUFFER_LENGTH (fun _ => true) env p fuel i v
        = skip_loop_R env p fuel i v := by
  intro fuel
  induction fuel with
  | zero => intro i v; simp only [skip_loop_R_W, skip_loop_R]
  | succ f ih => intro i v; simp [skip_loop_R_W, skip_loop_R, ih]

theorem active_loop_R_W_eq {G F : Type} (env : Env G F) (p : Params) :
    ∀ (fuel : Nat) (i : Int) (v : Vars G F),
      active_loop_R_W EID_BUFFER_LENGTH (fun _ => true) env p fuel i v
        = active_loop_R env p fuel i v := by
  intro fuel
  induction fuel with
  | zero => intro i v; simp only [active_loop_R_W, active_loop_R]
  | succ f ih => intro i v; simp [active_loop_R_W, active_loop_R, ih]

theorem frame_okay_W_eq (mode : Mode) : frame_okay_W EID_BUFFER_LENGTH mode = frame_okay mode :=
  rfl

theorem skip_loop_FB_W_eq {G F : Type} (env : Env G F) (p : Params) :
    ∀ (fuel : Nat) (i : Int) (v : Vars G F),
      skip_loop_FB_W EID_BUFFER_LENGTH (fun _ => true) env p fuel i v
        = skip_loop_FB env p fuel i v := by
  intro fuel
  induction fuel with
  | zero => intro i v; simp only [skip_loop_FB_W, skip_loop_FB]
  | succ f ih => intro i v; simp [skip_loop_FB_W, skip_loop_FB, ih, frame_okay_W_eq]

theorem active_loop_FB_W_eq {G F : Type} (env : Env G F) (p : Params) :
    ∀ (fuel : Nat) (i : Int) (v : Vars G F),
      active_loop_FB_W EID_BUFFER_LENGTH (fun _ => true) env p fuel i v
        = active_loop_FB env p fuel i v := by
  intro fuel
  induction fuel with
  | zero => intro i v; simp only [active_loop_FB_W, active_loop_FB]
  | succ f ih => intro i v; simp [active_loop_FB_W, active_loop_FB, ih]

/-- The generation with the parameter at `EID_BUFFER_LENGTH` and no
assertion is the generation of `main`. -/
theorem generate_W_eq {G F : Type} (env : Env G F) (p : Params) (v : Vars G F) :
    generate_W EID_BUFFER_LENGTH (fun _ => true) env p v = generate env p v := by
  simp only [generate_W, generate, skip_loop_R_W_eq, active_loop_R_W_eq, skip_loop_FB_W_eq,
    active_loop_FB_W_eq, frame_okay_W_eq]

/-- The pass with the parameter at `EID_BUFFER_LENGTH` and no assertion is
the pass of `main`. -/
theorem iteration_W_eq {G F : Type} (env : Env G F) (p : Params) (v : Vars G F) :
    iteration_W EID_BUFFER_LENGTH (fun _ => true) env p v = iteration env p v := by
  simp only [iteration_W, iteration, generate_W_eq]

/-! ## The windows of the skip phase -/

/-- The window length of the skip phase at offset `i`, a multiple of `W`. -/
theorem skip_window_W {W s i : Int} (hW : 1 ≤ W) (h0 : 0 ≤ i) (hd : W ∣ i) (hlt : i < s) :
    (if i + W > s then Int.tmod s W else W) = min (s - i) W := by
  have hs : (0 : Int) ≤ s := by omega
  rw [Int.tmod_eq_emod hs (by omega)]
  split_ifs with h
  · obtain ⟨j, rfl⟩ := hd
    have h1 : s % W = (s - W * j) % W := by
      conv_lhs => rw [show s = (s - W * j) + W * j by ring]
      exact Int.add_mul_emod_self_left _ _ _
    rw [h1, Int.emod_eq_of_lt (by omega) (by omega)]
    omega
  · omega

theorem window_sizes_nonpos (W : Int) (fuel : Nat) (m : Int) (hm : m ≤ 0) :
    window_sizes W fuel m = [] := by
  cases fuel with
  | zero => rfl
  | succ f => simp only [window_sizes, if_neg (not_lt.mpr hm)]

theorem save_all_cons {G F : Type} (env : Env G F) (w : List Int × Int)
    (ws : List (List Int × Int)) (file : F) :
    save_all env (w :: ws) file = save_all env ws (env.save_data w.1 w.2 file).1 := rfl

theorem save_all_append {G F : Type} (env : Env G F) (ws1 ws2 : List (List Int × Int))
    (file : F) :
    save_all env (ws1 ++ ws2) file = save_all env ws2 (save_all env ws1 file) := by
  simp only [save_all, List.foldl_append]

/-- The skip loop of modes 'F' and 'B' for the buffer length `W`, every write
returning its count: it ends normally; the file has been handed the windows
of `frame_okay`, of the lengths `window_sizes`, in turn, and `generated` has
grown by their total; nothing else has changed. -/
theorem skip_loop_FB_W_spec {G F : Type} (W : Int) (hW : 1 ≤ W) (ok : Int → Bool)
    (hok : ∀ k, 1 ≤ k → k ≤ W → ok k = true) (env : Env G F) (p : Params)
    (hcount : ∀ (patt : List Int) (n : Int) (file : F), 1 ≤ n → n ≤ W →
      (env.save_data patt n file).2 = n) :
    ∀ (fuel : Nat) (i : Int) (v : Vars G F), 0 ≤ i → W ∣ i → p.start_frame - i ≤ (fuel : Int) →
      skip_loop_FB_W W ok env p fuel i v
        = .ok { v with
            out_file_ptr := save_all env
              ((window_sizes W fuel (p.start_frame - i)).map
                (fun k => (frame_okay_W W p.mode, k))) v.out_file_ptr,
            generated := v.generated + max (p.start_frame - i) 0 } := by
  intro fuel
  induction fuel with
  | zero =>
    intro i v _ _ hf
    have hi : ¬ i < p.start_frame := by push_cast at hf; omega
    have hmax : max (p.start_frame - i) 0 = 0 := by omega
    simp only [skip_loop_FB_W, if_neg hi, window_sizes, List.map_nil, save_all, List.foldl_nil,
      hmax, add_zero]
  | succ f ih =>
    intro i v h0 hd hf
    by_cases hlt : i < p.start_frame
    · have hk := skip_window_W hW h0 hd hlt
      have hk1 : (1 : Int) ≤ min (p.start_frame - i) W := by omega
      have hk2 : min (p.start_frame - i) W ≤ W := by omega
      have hpos : 0 < p.start_frame - i := by omega
      simp only [skip_loop_FB_W, if_pos hlt, hk, hok _ hk1 hk2, Bool.true_eq_false, if_false,
        hcount _ _ _ hk1 hk2, window_sizes, if_pos hpos, List.map_cons, save_all_cons]
      rw [ih (i + W) _ (by omega) (dvd_add hd (dvd_refl W)) (by push_cast at hf; omega)]
      have e1 : p.start_frame - (i + W) = p.start_frame - i - W := by ring
      have e2 : v.generated + min (p.start_frame - i) W + max (p.start_frame - i - W) 0
          = v.generated + max (p.start_frame - i) 0 := by omega
      simp only [e1, e2]
    · have hmax : max (p.start_frame - i) 0 = 0 := by omega
      simp only [skip_loop_FB_W, if_neg hlt, window_sizes_nonpos W _ _ (by omega : p.start_frame - i ≤ 0),
        List.map_nil, save_all, List.foldl_nil, hmax, add_zero]

/-- The skip loop of mode 'R' for the buffer length `W`, every write
returning its count: it ends normally; the file has been handed the windows
of the buffer `error_pat`, of the lengths `window_sizes`, in turn, and
`generated` has grown by their total; nothing else has changed. -/
theorem skip_loop_R_W_spec {G F : Type} (W : Int) (hW : 1 ≤ W) (ok : Int → Bool)
    (hok : ∀ k, 1 ≤ k → k ≤ W → ok k = true) (env : Env G F) (p : Params)
    (hcount : ∀ (patt : List Int) (n : Int) (file : F), 1 ≤ n → n ≤ W →
      (env.save_data patt n file).2 = n) :
    ∀ (fuel : Nat) (i : Int) (v : Vars G F), 0 ≤ i → W ∣ i → p.start_frame - i ≤ (fuel : Int) →
      skip_loop_R_W W ok env p fuel i v
        = .ok { v with
            out_file_ptr := save_all env
              ((window_sizes W fuel (p.start_frame - i)).map (fun k => (v.error_pat, k)))
              v.out_file_ptr,
            generated := v.generated + max (p.start_frame - i) 0 } := by
  intro fuel
  induction fuel with
  | zero =>
    intro i v _ _ hf
    have hi : ¬ i < p.start_frame := by push_cast at hf; omega
    have hmax : max (p.start_frame - i) 0 = 0 := by omega
    simp only [skip_loop_R_W, if_neg hi, window_sizes, List.map_nil, save_all, List.foldl_nil,
      hmax, add_zero]
  | succ f ih =>
    intro i v h0 hd hf
    by_cases hlt : i < p.start_frame
    · have hk := skip_window_W hW h0 hd hlt
      have hk1 : (1 : Int) ≤ min (p.start_frame - i) W := by omega
      have hk2 : min (p.start_frame - i) W ≤ W := by omega
      have hpos : 0 < p.start_frame - i := by omega
      have hneg : ¬ (min (p.start_frame - i) W < 0) := by omega
      simp only [skip_loop_R_W, if_pos hlt, hk, hok _ hk1 hk2, Bool.true_eq_false, if_false,
        hcount _ _ _ hk1 hk2, if_neg hneg, window_sizes, if_pos hpos, List.map_cons,
        save_all_cons]
      rw [ih (i + W) _ (by omega) (dvd_add hd (dvd_refl W)) (by push_cast at hf; omega)]
      have e1 : p.start_frame - (i + W) = p.start_frame - i - W := by ring
      have e2 : v.generated + min (p.start_frame - i) W + max (p.start_frame - i - W) 0
          = v.generated + max (p.start_frame - i) 0 := by omega
      simp only [e1, e2]
    · have hmax : max (p.start_frame - i) 0 = 0 := by omega
      simp only [skip_loop_R_W, if_neg hlt, window_sizes_nonpos W _ _ (by omega : p.start_frame - i ≤ 0),
        List.map_nil, save_all, List.foldl_nil, hmax, add_zero]

/-! ## The windows of the active phase -/

theorem draw_state_add {G : Type} (gen : G → G × Int) :
    ∀ (a b : Nat) (state : G),
      draw_state gen (a + b) state = draw_state gen b (draw_state gen a state) := by
  intro a
  induction a with
  | zero => intro b state; simp only [Nat.zero_add, draw_state]
  | succ k ih =>
    intro b state
    rw [show k + 1 + b = (k + b) + 1 by omega]
    simp only [draw_state, ih]

theorem draw_codes_add {G : Type} (gen : G → G × Int) :
    ∀ (a b : Nat) (state : G),
      draw_codes gen (a + b) state
        = draw_codes gen a state ++ draw_codes gen b (draw_state gen a state) := by
  intro a
  induction a with
  | zero => intro b state; simp only [Nat.zero_add, draw_codes, draw_state, List.nil_append]
  | succ k ih =>
    intro b state
    rw [show k + 1 + b = (k + b) + 1 by omega]
    simp only [draw_codes, draw_state, ih, List.cons_append]

/-- The call of `run_FER_generator_random` or `run_FER_generator_burst` made
by the active loop, for a window of `k` frames in a buffer of at least `k`
entries. -/
theorem run_FER_mode {G F : Type} (env : Env G F) (mode : Mode) (patt : List Int) (state : G)
    (k : Int) (hk : 0 ≤ k) (hbuf : k ≤ (patt.length : Int)) :
    (if mode = Mode.F then run_FER_generator_random env patt state k
      else run_FER_generator_burst env patt state k)
      = some ((List.count G192_FER (draw_codes (fer_gen env mode) k.toNat state) : Int),
          draw_codes (fer_gen env mode) k.toNat state ++ patt.drop k.toNat,
          draw_state (fer_gen env mode) k.toNat state) := by
  have h := fun gen => run_FER_loop_spec (G := G) gen k k.toNat 0 0 patt state (le_refl 0) hk
    hbuf (by omega)
  simp only [sub_zero, Int.toNat_zero, List.take_zero, List.nil_append, zero_add] at h
  by_cases hm : mode = Mode.F
  · simp only [if_pos hm, run_FER_generator_random, fer_gen, h]
  · simp only [if_neg hm, run_FER_generator_burst, fer_gen, h]

theorem active_loop_FB_W_past {G F : Type} (W : Int) (ok : Int → Bool) (env : Env G F)
    (p : Params) (fuel : Nat) (i : Int) (v : Vars G F) (h : p.number_of_frames ≤ i) :
    active_loop_FB_W W ok env p fuel i v = .ok v := by
  cases fuel <;> simp [active_loop_FB_W, not_lt.mpr h]

theorem fer_windows_nonpos {G : Type} (gen : G → G × Int) (W : Int) (fuel : Nat) (m : Int)
    (state : G) (patt : List Int) (hm : m ≤ 0) : fer_windows gen W fuel m state patt = [] := by
  cases fuel with
  | zero => rfl
  | succ f => simp only [fer_windows, if_neg (not_lt.mpr hm)]

/-- The active loop of modes 'F' and 'B' for the buffer length `W`, entered
with `generated = i` and a buffer of at least `W` entries, every write
returning its count: the assertion never fails and the loop ends normally;
the device has been called `number_of_frames - i` times in a row, the file
has been handed the windows `fer_windows` in turn, and `disturbed` has grown
by the number of erased frames. -/
theorem active_loop_FB_W_spec {G F : Type} (W : Int) (hW : 1 ≤ W) (ok : Int → Bool)
    (hok : ∀ k, 1 ≤ k → k ≤ W → ok k = true) (env : Env G F) (p : Params)
    (hcount : ∀ (patt : List Int) (n : Int) (file : F), 1 ≤ n → n ≤ W →
      (env.save_data patt n file).2 = n) :
    ∀ (fuel : Nat) (i : Int) (v : Vars G F), (i < p.number_of_frames → v.generated = i) →
      p.number_of_frames - i ≤ (fuel : Int) → W ≤ (v.error_pat.length : Int) →
      ∃ v1, active_loop_FB_W W ok env p fuel i v = .ok v1
        ∧ active_loop_FB_W W (fun _ => true) env p fuel i v = .ok v1
        ∧ v1.generated = v.generated + max (p.number_of_frames - i) 0
        ∧ v1.processed = v.processed + max (p.number_of_frames - i) 0
        ∧ v1.iteraction = v.iteraction
        ∧ v1.eid = draw_state (fer_gen env p.mode) (p.number_of_frames - i).toNat v.eid
        ∧ v1.error_pat.length = v.error_pat.length
        ∧ v1.out_file_ptr = save_all env
            (fer_windows (fer_gen env p.mode) W fuel (p.number_of_frames - i) v.eid v.error_pat)
            v.out_file_ptr
        ∧ v1.disturbed = v.disturbed
            + ((List.count G192_FER
                (draw_codes (fer_gen env p.mode) (p.number_of_frames - i).toNat v.eid) : Int) : ℚ)
        := by
  intro fuel
  induction fuel with
  | zero =>
    intro i v _ hf _
    have hi : p.number_of_frames ≤ i := by push_cast at hf; omega
    have hz : (p.number_of_frames - i).toNat = 0 := by omega
    refine ⟨v, active_loop_FB_W_past W ok env p 0 i v hi,
      active_loop_FB_W_past W _ env p 0 i v hi, by omega, by omega, rfl, ?_, rfl, ?_, ?_⟩
    · rw [hz]; rfl
    · simp only [fer_windows, save_all, List.foldl_nil]
    · rw [hz]; simp [draw_codes]
  | succ f ih =>
    intro i v hg hf hbuf
    by_cases hlt : i < p.number_of_frames
    · have hgi := hg hlt
      have hk : (if i + W > p.number_of_frames then p.number_of_frames - v.generated else W)
          = min (p.number_of_frames - i) W := by
        rw [hgi]; split_ifs with h <;> omega
      have hk1 : (1 : Int) ≤ min (p.number_of_frames - i) W := by omega
      have hk2 : min (p.number_of_frames - i) W ≤ W := by omega
      have hpos : 0 < p.number_of_frames - i := by omega
      have hneg : ¬ (min (p.number_of_frames - i) W < 0) := by omega
      have hrun := run_FER_mode env p.mode v.error_pat v.eid (min (p.number_of_frames - i) W)
        (by omega) (by omega)
      have hlen : (draw_codes (fer_gen env p.mode) (min (p.number_of_frames - i) W).toNat v.eid
          ++ v.error_pat.drop (min (p.number_of_frames - i) W).toNat).length
          = v.error_pat.length := by
        rw [List.length_append, draw_codes_length, List.length_drop]
        omega
      obtain ⟨v1, h1, h2, hg1, hp1, hit1, he1, hl1, hfile1, hd1⟩ :=
        ih (i + W)
          { v with eid := draw_state (fer_gen env p.mode)
                     (min (p.number_of_frames - i) W).toNat v.eid,
                   error_pat := draw_codes (fer_gen env p.mode)
                     (min (p.number_of_frames - i) W).toNat v.eid
                     ++ v.error_pat.drop (min (p.number_of_frames - i) W).toNat,
                   ber1 := ((List.count G192_FER (draw_codes (fer_gen env p.mode)
                     (min (p.number_of_frames - i) W).toNat v.eid) : Int) : ℚ),
                   out_file_ptr := (env.save_data
                     (draw_codes (fer_gen env p.mode)
                       (min (p.number_of_frames - i) W).toNat v.eid
                       ++ v.error_pat.drop (min (p.number_of_frames - i) W).toNat)
                     (min (p.number_of_frames - i) W) v.out_file_ptr).1,
                   disturbed := v.disturbed + ((List.count G192_FER
                     (draw_codes (fer_gen env p.mode)
                       (min (p.number_of_frames - i) W).toNat v.eid) : Int) : ℚ),
                   processed := v.processed + min (p.number_of_frames - i) W,
                   generated := v.generated + min (p.number_of_frames - i) W }
          (by intro h; simp only; omega) (by push_cast at hf; omega)
          (by simp only; rw [hlen]; exact hbuf)
      have hsplit : (p.number_of_frames - i).toNat
          = (min (p.number_of_frames - i) W).toNat + (p.number_of_frames - (i + W)).toNat := by
        omega
      have e1 : p.number_of_frames - (i + W) = p.number_of_frames - i - W := by ring
      refine ⟨v1, ?_, ?_, ?_, ?_, hit1, ?_, ?_, ?_, ?_⟩
      · simp only [active_loop_FB_W, if_pos hlt, hk, hok _ hk1 hk2, Bool.true_eq_false, if_false,
          hrun, hcount _ _ _ hk1 hk2, if_neg hneg]
        exact h1
      · simp only [active_loop_FB_W, if_pos hlt, hk, Bool.true_eq_false, if_false,
          hrun, hcount _ _ _ hk1 hk2, if_neg hneg]
        exact h2
      · rw [hg1]; simp only; omega
      · rw [hp1]; simp only; omega
      · rw [he1, hsplit, draw_state_add]
      · rw [hl1]; simp only; exact hlen
      · rw [hfile1]
        simp only [fer_windows, if_pos hpos, save_all_cons, e1]
      · rw [hd1, hsplit, draw_codes_add, List.count_append]
        simp only
        push_cast
        ring
    · have hi : p.number_of_frames ≤ i := by omega
      have hz : (p.number_of_frames - i).toNat = 0 := by omega
      refine ⟨v, active_loop_FB_W_past W ok env p _ i v hi,
        active_loop_FB_W_past W _ env p _ i v hi, by omega, by omega, rfl, ?_, rfl, ?_, ?_⟩
      · rw [hz]; rfl
      · simp only [fer_windows_nonpos _ _ _ _ _ _ (by omega : p.number_of_frames - i ≤ 0),
          save_all, List.foldl_nil]
      · rw [hz]; simp [draw_codes]

theorem active_loop_R_W_past {G F : Type} (W : Int) (ok : Int → Bool) (env : Env G F)
    (p : Params) (fuel : Nat) (i : Int) (v : Vars G F) (h : p.number_of_frames ≤ i) :
    active_loop_R_W W ok env p fuel i v = .ok v := by
  cases fuel <;> simp [active_loop_R_W, not_lt.mpr h]

theorem ber_windows_nonpos {G F : Type} (env : Env G F) (W : Int) (fuel : Nat) (m : Int)
    (state : G) (patt : List Int) (hm : m ≤ 0) : ber_windows env W fuel m state patt = [] := by
  cases fuel with
  | zero => rfl
  | succ f => simp only [ber_windows, if_neg (not_lt.mpr hm)]

/-- The active loop of mode 'R' for the buffer length `W`, entered with
`generated = i`, every write returning its count: the assertion never fails
and the loop ends normally; the file has been handed the windows
`ber_windows` in turn. -/
theorem active_loop_R_W_spec {G F : Type} (W : Int) (hW : 1 ≤ W) (ok : Int → Bool)
    (hok : ∀ k, 1 ≤ k → k ≤ W → ok k = true) (env : Env G F) (p : Params)
    (hcount : ∀ (patt : List Int) (n : Int) (file : F), 1 ≤ n → n ≤ W →
      (env.save_data patt n file).2 = n) :
    ∀ (fuel : Nat) (i : Int) (v : Vars G F), (i < p.number_of_frames → v.generated = i) →
      p.number_of_frames - i ≤ (fuel : Int) →
      ∃ v1, active_loop_R_W W ok env p fuel i v = .ok v1
        ∧ active_loop_R_W W (fun _ => true) env p fuel i v = .ok v1
        ∧ v1.generated = v.generated + max (p.number_of_frames - i) 0
        ∧ v1.processed = v.processed + max (p.number_of_frames - i) 0
        ∧ v1.iteraction = v.iteraction
        ∧ v1.out_file_ptr = save_all env
            (ber_windows env W fuel (p.number_of_frames - i) v.eid v.error_pat)
            v.out_file_ptr := by
  intro fuel
  induction fuel with
  | zero =>
    intro i v _ hf
    have hi : p.number_of_frames ≤ i := by push_cast at hf; omega
    refine ⟨v, active_loop_R_W_past W ok env p 0 i v hi,
      active_loop_R_W_past W _ env p 0 i v hi, by omega, by omega, rfl, ?_⟩
    simp only [ber_windows, save_all, List.foldl_nil]
  | succ f ih =>
    intro i v hg hf
    by_cases hlt : i < p.number_of_frames
    · have hgi := hg hlt
      have hk : (if i + W > p.number_of_frames then p.number_of_frames - v.generated else W)
          = min (p.number_of_frames - i) W := by
        rw [hgi]; split_ifs with h <;> omega
      have hk1 : (1 : Int) ≤ min (p.number_of_frames - i) W := by omega
      have hk2 : min (p.number_of_frames - i) W ≤ W := by omega
      have hpos : 0 < p.number_of_frames - i := by omega
      have hneg : ¬ (min (p.number_of_frames - i) W < 0) := by omega
      obtain ⟨v1, h1, h2, hg1, hp1, hit1, hfile1⟩ :=
        ih (i + W)
          { v with eid := (env.BER_generator v.eid (min (p.number_of_frames - i) W)
                     v.error_pat).1,
                   error_pat := (env.BER_generator v.eid (min (p.number_of_frames - i) W)
                     v.error_pat).2.1,
                   ber1 := (env.BER_generator v.eid (min (p.number_of_frames - i) W)
                     v.error_pat).2.2,
                   out_file_ptr := (env.save_data
                     (env.BER_generator v.eid (min (p.number_of_frames - i) W)
                       v.error_pat).2.1
                     (min (p.number_of_frames - i) W) v.out_file_ptr).1,
                   disturbed := v.disturbed
                     + (env.BER_generator v.eid (min (p.number_of_frames - i) W)
                         v.error_pat).2.2,
                   processed := v.processed + min (p.number_of_frames - i) W,
                   generated := v.generated + min (p.number_of_frames - i) W }
          (by intro h; simp only; omega) (by push_cast at hf; omega)
      have e1 : p.number_of_frames - (i + W) = p.number_of_frames - i - W := by ring
      refine ⟨v1, ?_, ?_, ?_, ?_, hit1, ?_⟩
      · simp only [active_loop_R_W, if_pos hlt, hk, hok _ hk1 hk2, Bool.true_eq_false, if_false,
          hcount _ _ _ hk1 hk2, if_neg hneg]
        exact h1
      · simp only [active_loop_R_W, if_pos hlt, hk, Bool.true_eq_false, if_false,
          hcount _ _ _ hk1 hk2, if_neg hneg]
        exact h2
      · rw [hg1]; simp only; omega
      · rw [hp1]; simp only; omega
      · rw [hfile1]
        simp only [ber_windows, if_pos hpos, save_all_cons, e1]
    · have hi : p.number_of_frames ≤ i := by omega
      refine ⟨v, active_loop_R_W_past W ok env p _ i v hi,
        active_loop_R_W_past W _ env p _ i v hi, by omega, by omega, rfl, ?_⟩
      simp only [ber_windows_nonpos _ _ _ _ _ _ (by omega : p.number_of_frames - i ≤ 0),
        save_all, List.foldl_nil]

/-! ## One pass as a list of windows -/

theorem generate_W_R {G F : Type} (W : Int) (ok : Int → Bool) (env : Env G F) (p : Params)
    (v : Vars G F) (hm : p.mode = Mode.R) (vs : Vars G F)
    (hs : skip_loop_R_W W ok env p p.start_frame.toNat 0
        { v with error_pat := frame_okay_W W p.mode } = .ok vs) :
    generate_W W ok env p v
      = active_loop_R_W W ok env p (p.number_of_frames - p.start_frame).toNat p.start_frame
          vs := by
  unfold generate_W
  split
  · rw [hs]
  · rename_i h; exact absurd hm (h)

theorem generate_W_FB {G F : Type} (W : Int) (ok : Int → Bool) (env : Env G F) (p : Params)
    (v : Vars G F) (hm : p.mode ≠ Mode.R) (vs : Vars G F)
    (hs : skip_loop_FB_W W ok env p p.start_frame.toNat 0
        { v with eid := pass_state env p v } = .ok vs) :
    generate_W W ok env p v
      = active_loop_FB_W W ok env p (p.number_of_frames - p.start_frame).toNat p.start_frame
          vs := by
  have hgen : (if p.mode = Mode.B ∧ p.reset = true
      then { v with eid := env.reset_burst_eid v.eid } else v)
      = { v with eid := pass_state env p v } := by
    unfold pass_state
    split_ifs <;> rfl
  unfold generate_W
  split
  · rename_i h; exact absurd h hm
  · rw [hgen, hs]

/-- The skip loops for the buffer length `W` from offset 0, every write
returning its count: the assertion never fails, the loop ends normally, the
save function has been called for `windows` and only the file and
`generated` have changed. -/
theorem skip_loop_W_ok {G F : Type} (W : Int) (hW : 1 ≤ W) (ok : Int → Bool)
    (hok : ∀ k, 1 ≤ k → k ≤ W → ok k = true) (env : Env G F) (p : Params)
    (hcount : ∀ (patt : List Int) (n : Int) (file : F), 1 ≤ n → n ≤ W →
      (env.save_data patt n file).2 = n)
    (h0 : 0 ≤ p.start_frame) (v : Vars G F) :
    (∃ vs, skip_loop_FB_W W ok env p p.start_frame.toNat 0 v = .ok vs
      ∧ skip_loop_FB_W W (fun _ => true) env p p.start_frame.toNat 0 v = .ok vs
      ∧ vs.generated = v.generated + p.start_frame ∧ vs.processed = v.processed
      ∧ vs.iteraction = v.iteraction ∧ vs.eid = v.eid ∧ vs.error_pat = v.error_pat
      ∧ vs.disturbed = v.disturbed
      ∧ vs.out_file_ptr = save_all env (skip_windows W p) v.out_file_ptr)
    ∧ (∃ vs, skip_loop_R_W W ok env p p.start_frame.toNat 0 v = .ok vs
      ∧ skip_loop_R_W W (fun _ => true) env p p.start_frame.toNat 0 v = .ok vs
      ∧ vs.generated = v.generated + p.start_frame ∧ vs.processed = v.processed
      ∧ vs.iteraction = v.iteraction ∧ vs.eid = v.eid ∧ vs.error_pat = v.error_pat
      ∧ vs.disturbed = v.disturbed
      ∧ vs.out_file_ptr = save_all env
          ((window_sizes W p.start_frame.toNat p.start_frame).map (fun k => (v.error_pat, k)))
          v.out_file_ptr) := by
  have hfs : p.start_frame - 0 ≤ (p.start_frame.toNat : Int) := by
    rw [Int.toNat_of_nonneg h0]; omega
  have htrue : ∀ k : Int, 1 ≤ k → k ≤ W → (fun _ : Int => true) k = true := fun _ _ _ => rfl
  constructor
  · refine ⟨_, skip_loop_FB_W_spec W hW ok hok env p hcount p.start_frame.toNat 0 v
      (le_refl 0) (dvd_zero W) hfs,
      skip_loop_FB_W_spec W hW _ htrue env p hcount p.start_frame.toNat 0 v
      (le_refl 0) (dvd_zero W) hfs, ?_, rfl, rfl, rfl, rfl, rfl, ?_⟩
    · show v.generated + max (p.start_frame - 0) 0 = v.generated + p.start_frame
      omega
    · show save_all env _ v.out_file_ptr = save_all env (skip_windows W p) v.out_file_ptr
      simp only [skip_windows, sub_zero]
  · refine ⟨_, skip_loop_R_W_spec W hW ok hok env p hcount p.start_frame.toNat 0 v
      (le_refl 0) (dvd_zero W) hfs,
      skip_loop_R_W_spec W hW _ htrue env p hcount p.start_frame.toNat 0 v
      (le_refl 0) (dvd_zero W) hfs, ?_, rfl, rfl, rfl, rfl, rfl, ?_⟩
    · show v.generated + max (p.start_frame - 0) 0 = v.generated + p.start_frame
      omega
    · show save_all env _ v.out_file_ptr = save_all env _ v.out_file_ptr
      simp only [sub_zero]

/-- The generation of one pass for the buffer length `W`, entered with
`generated = 0` and (in modes 'F' and 'B') a buffer of at least `W` entries,
every write returning its count: the assertion on the window lengths never
fails and the generation ends normally; the save function has been called
for the windows `pass_windows` in turn. -/
theorem generate_W_spec {G F : Type} (W : Int) (hW : 1 ≤ W) (ok : Int → Bool)
    (hok : ∀ k, 1 ≤ k → k ≤ W → ok k = true) (env : Env G F) (p : Params)
    (hcount : ∀ (patt : List Int) (n : Int) (file : F), 1 ≤ n → n ≤ W →
      (env.save_data patt n file).2 = n)
    (h0 : 0 ≤ p.start_frame) (hlt : p.start_frame < p.number_of_frames) (v : Vars G F)
    (hg : v.generated = 0)
    (hbuf : p.mode ≠ Mode.R → W ≤ (v.error_pat.length : Int)) :
    ∃ v1, generate_W W ok env p v = .ok v1
      ∧ generate_W W (fun _ => true) env p v = .ok v1
      ∧ v1.generated = p.number_of_frames
      ∧ v1.processed = v.processed + (p.number_of_frames - p.start_frame)
      ∧ v1.iteraction = v.iteraction
      ∧ v1.out_file_ptr = save_all env (pass_windows env W p v) v.out_file_ptr
      ∧ (p.mode ≠ Mode.R →
          v1.eid = draw_state (fer_gen env p.mode)
            (p.number_of_frames - p.start_frame).toNat (pass_state env p v)
          ∧ v1.error_pat.length = v.error_pat.length
          ∧ v1.disturbed = v.disturbed
              + ((List.count G192_FER (draw_codes (fer_gen env p.mode)
                  (p.number_of_frames - p.start_frame).toNat (pass_state env p v)) : Int) : ℚ))
      := by
  have hfa : p.number_of_frames - p.start_frame
      ≤ ((p.number_of_frames - p.start_frame).toNat : Int) := by
    rw [Int.toNat_of_nonneg (by omega)]
  by_cases hm : p.mode = Mode.R
  · obtain ⟨vs, hs1, hs2, hgs, hps, hits, hes, hbs, -, hfs⟩ :=
      (skip_loop_W_ok W hW ok hok env p hcount h0
        { v with error_pat := frame_okay_W W p.mode }).2
    rw [generate_W_R W ok env p v hm _ hs1, generate_W_R W _ env p v hm _ hs2]
    obtain ⟨v1, h1, h2, hg1, hp1, hit1, hfile1⟩ :=
      active_loop_R_W_spec W hW ok hok env p hcount
        (p.number_of_frames - p.start_frame).toNat p.start_frame vs
        (by intro _; rw [hgs]; simp only; omega) hfa
    refine ⟨v1, h1, h2, ?_, ?_, ?_, ?_, fun h => absurd hm h⟩
    · rw [hg1, hgs]; simp only; omega
    · rw [hp1, hps]; simp only; omega
    · rw [hit1, hits]
    · rw [hfile1, hfs, hes, hbs]
      simp only [pass_windows, skip_windows, active_windows, if_pos hm, save_all_append]
  · obtain ⟨vs, hs1, hs2, hgs, hps, hits, hes, hbs, hds, hfs⟩ :=
      (skip_loop_W_ok W hW ok hok env p hcount h0 { v with eid := pass_state env p v }).1
    rw [generate_W_FB W ok env p v hm _ hs1, generate_W_FB W _ env p v hm _ hs2]
    obtain ⟨v1, h1, h2, hg1, hp1, hit1, he1, hl1, hfile1, hd1⟩ :=
      active_loop_FB_W_spec W hW ok hok env p hcount
        (p.number_of_frames - p.start_frame).toNat p.start_frame vs
        (by intro _; rw [hgs]; simp only; omega) hfa (by rw [hbs]; exact hbuf hm)
    refine ⟨v1, h1, h2, ?_, ?_, ?_, ?_, fun _ => ⟨?_, ?_, ?_⟩⟩
    · rw [hg1, hgs]; simp only; omega
    · rw [hp1, hps]; simp only; omega
    · rw [hit1, hits]
    · rw [hfile1, hfs, hes, hbs]
      simp only [pass_windows, active_windows, if_neg hm, save_all_append]
    · rw [he1, hes]
    · rw [hl1, hbs]
    · rw [hd1, hds, hes]

/-- One pass of the convergence loop for the buffer length `W` on checked
parameters, every write returning its count: the assertion on the window
lengths never fails and the pass ends normally; after the rewind the save
function has been called for the windows `pass_windows` in turn. -/
theorem iteration_W_spec {G F : Type} (W : Int) (hW : 1 ≤ W) (ok : Int → Bool)
    (hok : ∀ k, 1 ≤ k → k ≤ W → ok k = true) (env : Env G F) (p : Params)
    (hcount : ∀ (patt : List Int) (n : Int) (file : F), 1 ≤ n → n ≤ W →
      (env.save_data patt n file).2 = n)
    (h0 : 0 ≤ p.start_frame) (hlt : p.start_frame < p.number_of_frames) (v : Vars G F)
    (hbuf : p.mode ≠ Mode.R → W ≤ (v.error_pat.length : Int)) :
    ∃ v1, iteration_W W ok env p v = .ok v1
      ∧ iteration_W W (fun _ => true) env p v = .ok v1
      ∧ v1.generated = p.number_of_frames
      ∧ v1.processed = p.number_of_frames - p.start_frame
      ∧ v1.iteraction = v.iteraction + 1
      ∧ v1.out_file_ptr = save_all env (pass_windows env W p v) (env.fseek v.out_file_ptr)
      ∧ (p.mode ≠ Mode.R →
          v1.eid = draw_state (fer_gen env p.mode)
            (p.number_of_frames - p.start_frame).toNat (pass_state env p v)
          ∧ v1.error_pat.length = v.error_pat.length
          ∧ v1.disturbed
              = ((List.count G192_FER (draw_codes (fer_gen env p.mode)
                  (p.number_of_frames - p.start_frame).toNat (pass_state env p v)) : Int) : ℚ))
      := by
  obtain ⟨v1, h1, h2, hg1, hp1, hit1, hfile1, hfb⟩ :=
    generate_W_spec W hW ok hok env p hcount h0 hlt
      { v with iteraction := v.iteraction + 1, out_file_ptr := env.fseek v.out_file_ptr,
               ber1 := 0, processed := 0, generated := 0, disturbed := 0 } rfl hbuf
  refine ⟨{ v1 with percentage_gen := Dbl.div v1.disturbed (v1.generated : ℚ),
                    percentage_proc := Dbl.div v1.disturbed (v1.processed : ℚ),
                    percentage_used := if p.tailstat = true
                      then Dbl.div v1.disturbed (v1.processed : ℚ)
                      else Dbl.div v1.disturbed (v1.generated : ℚ) },
    ?_, ?_, hg1, ?_, hit1, hfile1, ?_⟩
  · simp only [iteration_W, h1]
  · simp only [iteration_W, h2]
  · show v1.processed = _
    rw [hp1]; simp only; omega
  · intro hm
    obtain ⟨he, hl, hd⟩ := hfb hm
    refine ⟨he, hl, ?_⟩
    show v1.disturbed = _
    rw [hd]
    simp only [zero_add]
    rfl

/-! ## The symbols handed to the save function -/

theorem symbols_of_append (ws1 ws2 : List (List Int × Int)) :
    symbols_of (ws1 ++ ws2) = symbols_of ws1 ++ symbols_of ws2 := by
  induction ws1 with
  | nil => rfl
  | cons w ws ih =>
    show w.1.take w.2.toNat ++ symbols_of (ws ++ ws2)
      = (w.1.take w.2.toNat ++ symbols_of ws) ++ symbols_of ws2
    rw [ih, List.append_assoc]

/-- The windows of `m` symbols taken from a buffer of `W` copies of `c` hand
over `m` copies of `c`. -/
theorem symbols_of_constant (W : Int) (hW : 1 ≤ W) (c : Int) :
    ∀ (fuel : Nat) (m : Int), m ≤ (fuel : Int) →
      symbols_of ((window_sizes W fuel m).map (fun k => (List.replicate W.toNat c, k)))
        = List.replicate m.toNat c := by
  intro fuel
  induction fuel with
  | zero =>
    intro m hm
    have hz : m.toNat = 0 := by push_cast at hm; omega
    simp only [window_sizes, List.map_nil, symbols_of, hz, List.replicate_zero]
  | succ f ih =>
    intro m hm
    by_cases hpos : 0 < m
    · simp only [window_sizes, if_pos hpos, List.map_cons, symbols_of,
        ih (m - W) (by push_cast at hm; omega), List.take_replicate,
        List.append_replicate_replicate]
      congr 1
      omega
    · have hz : m.toNat = 0 := by omega
      simp only [window_sizes, if_neg hpos, List.map_nil, symbols_of, hz, List.replicate_zero]

/-- The windows of the skip phase hand over `start_frame` copies of the code
of the mode, `G192_ZERO` in mode 'R' and `G192_SYNC` in modes 'F' and 'B'. -/
theorem symbols_of_skip_windows (W : Int) (hW : 1 ≤ W) (p : Params) :
    symbols_of (skip_windows W p)
      = List.replicate p.start_frame.toNat (if p.mode = Mode.R then G192_ZERO else G192_SYNC)
    := by
  unfold skip_windows frame_okay_W
  exact symbols_of_constant W hW _ p.start_frame.toNat p.start_frame (Int.self_le_toNat _)

/-- The windows of `m` frames drawn from the device hand over the codes of
`m` calls in a row. -/
theorem symbols_of_fer_windows {G : Type} (gen : G → G × Int) (W : Int) (hW : 1 ≤ W) :
    ∀ (fuel : Nat) (m : Int) (state : G) (patt : List Int), m ≤ (fuel : Int) →
      symbols_of (fer_windows gen W fuel m state patt) = draw_codes gen m.toNat state := by
  intro fuel
  induction fuel with
  | zero =>
    intro m state patt hm
    have hz : m.toNat = 0 := by push_cast at hm; omega
    simp only [fer_windows, symbols_of, hz, draw_codes]
  | succ f ih =>
    intro m state patt hm
    by_cases hpos : 0 < m
    · have hsplit : m.toNat = (min m W).toNat + (m - W).toNat := by omega
      simp only [fer_windows, if_pos hpos, symbols_of,
        ih (m - W) _ _ (by push_cast at hm; omega)]
      rw [hsplit, draw_codes_add, List.take_left']
      exact draw_codes_length gen _ _
    · have hz : m.toNat = 0 := by omega
      simp only [fer_windows, if_neg hpos, symbols_of, hz, draw_codes]

/-! ## The lengths of the windows -/

theorem mem_window_sizes (W : Int) (hW : 1 ≤ W) :
    ∀ (fuel : Nat) (m k : Int), k ∈ window_sizes W fuel m → 1 ≤ k ∧ k ≤ W := by
  intro fuel
  induction fuel with
  | zero => intro m k hk; simp [window_sizes] at hk
  | succ f ih =>
    intro m k hk
    by_cases hpos : 0 < m
    · simp only [window_sizes, if_pos hpos, List.mem_cons] at hk
      rcases hk with rfl | hk
      · omega
      · exact ih _ _ hk
    · simp [window_sizes, if_neg hpos] at hk

theorem fer_windows_sizes {G : Type} (gen : G → G × Int) (W : Int) :
    ∀ (fuel : Nat) (m : Int) (state : G) (patt : List Int),
      (fer_windows gen W fuel m state patt).map Prod.snd = window_sizes W fuel m := by
  intro fuel
  induction fuel with
  | zero => intro m state patt; rfl
  | succ f ih =>
    intro m state patt
    by_cases hpos : 0 < m
    · simp only [fer_windows, window_sizes, if_pos hpos, List.map_cons, ih]
    · simp only [fer_windows, window_sizes, if_neg hpos, List.map_nil]

theorem ber_windows_sizes {G F : Type} (env : Env G F) (W : Int) :
    ∀ (fuel : Nat) (m : Int) (state : G) (patt : List Int),
      (ber_windows env W fuel m state patt).map Prod.snd = window_sizes W fuel m := by
  intro fuel
  induction fuel with
  | zero => intro m state patt; rfl
  | succ f ih =>
    intro m state patt
    by_cases hpos : 0 < m
    · simp only [ber_windows, window_sizes, if_pos hpos, List.map_cons, ih]
    · simp only [ber_windows, window_sizes, if_neg hpos, List.map_nil]

/-- The lengths of the windows of a pass: those of the skip phase, then
those of the active phase. -/
theorem pass_windows_sizes {G F : Type} (env : Env G F) (W : Int) (p : Params) (v : Vars G F) :
    (pass_windows env W p v).map Prod.snd
      = window_sizes W p.start_frame.toNat p.start_frame
        ++ window_sizes W (p.number_of_frames - p.start_frame).toNat
            (p.number_of_frames - p.start_frame) := by
  unfold pass_windows skip_windows active_windows
  rw [List.map_append, List.map_map]
  congr 1
  · exact List.map_id _
  · split_ifs
    · exact ber_windows_sizes env W _ _ _ _
    · exact fer_windows_sizes _ W _ _ _ _

/-- Every window of a pass has a length between 1 and `W`. -/
theorem pass_windows_range {G F : Type} (env : Env G F) (W : Int) (hW : 1 ≤ W) (p : Params)
    (v : Vars G F) (w : List Int × Int) (hw : w ∈ pass_windows env W p v) :
    1 ≤ w.2 ∧ w.2 ≤ W := by
  have hmem : w.2 ∈ (pass_windows env W p v).map Prod.snd := List.mem_map_of_mem _ hw
  rw [pass_windows_sizes, List.mem_append] at hmem
  rcases hmem with h | h
  · exact mem_window_sizes W hW _ _ _ h
  · exact mem_window_sizes W hW _ _ _ h

/-- The lengths of the windows that cover `m` symbols add up to `m`. -/
theorem window_sizes_sum (W : Int) (hW : 1 ≤ W) :
    ∀ (fuel : Nat) (m : Int), m ≤ (fuel : Int) → (window_sizes W fuel m).sum = max m 0 := by
  intro fuel
  induction fuel with
  | zero =>
    intro m hm
    push_cast at hm
    simp only [window_sizes, List.sum_nil]
    omega
  | succ f ih =>
    intro m hm
    by_cases hpos : 0 < m
    · simp only [window_sizes, if_pos hpos, List.sum_cons,
        ih (m - W) (by push_cast at hm; omega)]
      omega
    · simp only [window_sizes, if_neg hpos, List.sum_nil]
      omega

/-- C13. For every valid request and every pass of the convergence loop,
whatever the variables at its start (in particular whatever `BER_generator`
left in the shared buffer on an earlier pass of mode 'R'; in modes 'F' and
'B' the buffer has its `EID_BUFFER_LENGTH` entries, which the pass
preserves), if every window write returns its count then the pass ends
normally, the save function has been called after the rewind for the skip
windows and then for the active windows, and the skip windows hand over
`start_frame - 1` symbols, each the code of the mode: `G192_ZERO` = 0x007F
in mode 'R', `G192_SYNC` = 0x6B21 in modes 'F' and 'B'. -/
theorem skip_symbols_are_ok {G F : Type} (env : Env G F)
    (hsave : SaveReturnsCount env) (p q : Params) (w : Bool) (hstart : 1 ≤ p.start_frame)
    (hchk : main_checks p = .ok (q, w)) (v : Vars G F)
    (hbuf : p.mode ≠ Mode.R → EID_BUFFER_LENGTH ≤ (v.error_pat.length : Int)) :
    ∃ v1, iteration env q v = .ok v1
      ∧ v1.out_file_ptr
          = save_all env
              (skip_windows EID_BUFFER_LENGTH q ++ active_windows env EID_BUFFER_LENGTH q v)
              (env.fseek v.out_file_ptr)
      ∧ symbols_of (skip_windows EID_BUFFER_LENGTH q)
          = List.replicate (p.start_frame - 1).toNat
              (if p.mode = Mode.R then G192_ZERO else G192_SYNC)
      ∧ G192_ZERO = 0x007F ∧ G192_SYNC = 0x6B21
      ∧ (p.mode ≠ Mode.R → EID_BUFFER_LENGTH ≤ (v1.error_pat.length : Int)) := by
  obtain ⟨h0, hlt⟩ := main_checks_valid p q w hstart hchk
  obtain ⟨hm, -, hs, -⟩ := main_checks_fields p q w hchk
  obtain ⟨v1, -, h2, -, -, -, hfile, hfb⟩ :=
    iteration_W_spec EID_BUFFER_LENGTH (by decide) (fun _ => true) (fun _ _ _ => rfl) env q
      hsave h0 hlt v (by rw [hm]; exact hbuf)
  rw [iteration_W_eq] at h2
  refine ⟨v1, h2, hfile, ?_, rfl, rfl, ?_⟩
  · rw [symbols_of_skip_windows EID_BUFFER_LENGTH (by decide), hm, hs]
  · intro hR
    rw [(hfb (by rw [hm]; exact hR)).2.1]
    exact hbuf hR

/-- C13 in mode 'R' at 600 bits from bit 300, on a pass that finds the
buffer full of bit errors. -/
theorem skip_symbols_are_ok_witness :
    ∃ v1, iteration sample_env (default_params Mode.R 600 299 (1 / 10))
        { initial_vars 0 empty_file with error_pat := List.replicate 256 G192_ONE } = .ok v1
      ∧ v1.out_file_ptr
          = save_all sample_env
              (skip_windows EID_BUFFER_LENGTH (default_params Mode.R 600 299 (1 / 10))
                ++ active_windows sample_env EID_BUFFER_LENGTH
                    (default_params Mode.R 600 299 (1 / 10))
                    { initial_vars 0 empty_file with error_pat := List.replicate 256 G192_ONE })
              (sample_env.fseek empty_file)
      ∧ symbols_of (skip_windows EID_BUFFER_LENGTH (default_params Mode.R 600 299 (1 / 10)))
          = List.replicate 299 G192_ZERO
      ∧ G192_ZERO = 0x007F ∧ G192_SYNC = 0x6B21
      ∧ ((default_params Mode.R 600 300 (1 / 10)).mode ≠ Mode.R
          → EID_BUFFER_LENGTH ≤ (v1.error_pat.length : Int)) :=
  skip_symbols_are_ok sample_env sample_env_saves
    (default_params Mode.R 600 300 (1 / 10)) (default_params Mode.R 600 299 (1 / 10)) false
    (by decide)
    (main_checks_plain (default_params Mode.R 600 300 (1 / 10)) (by decide) (by decide)
      (by decide) (by norm_num [default_params]) rfl)
    { initial_vars 0 empty_file with error_pat := List.replicate 256 G192_ONE }
    (fun h => absurd rfl h)

/-- C17. In the frame-erasure modes, for every valid request, every buffer
length `W >= 1` and every pass entered with a buffer of at least `W`
entries, if every window write returns its count then the pass with windows
of `W` frames ends normally (with `W = EID_BUFFER_LENGTH` it is the pass of
`main`); the symbols handed to the save function for its windows, in the
order of the calls, are those of the run of the specification made one
symbol at a time from the state of the device at the start of the
generation: `start_frame - 1` times `G192_SYNC`, then the codes of the first
`number_of_frames - start_frame + 1` calls of the device; and the device is
left in the state that exactly this number of calls gives.  Neither depends
on `W`. -/
theorem windowed_frames_refine_source {G F : Type} (env : Env G F) (p q : Params) (w : Bool)
    (hstart : 1 ≤ p.start_frame) (hchk : main_checks p = .ok (q, w))
    (hmode : p.mode ≠ Mode.R) (W : Int) (hW : 1 ≤ W)
    (hcount : ∀ (patt : List Int) (n : Int) (file : F), 1 ≤ n → n ≤ W →
      (env.save_data patt n file).2 = n)
    (v : Vars G F) (hbuf : W ≤ (v.error_pat.length : Int)) :
    ∃ v1, iteration_W W (fun _ => true) env q v = .ok v1
      ∧ (W = EID_BUFFER_LENGTH → iteration env q v = .ok v1)
      ∧ v1.out_file_ptr = save_all env (pass_windows env W q v) (env.fseek v.out_file_ptr)
      ∧ symbols_of (pass_windows env W q v)
          = (spec_run (fer_gen env p.mode) p.start_frame p.number_of_frames
              (pass_state env q v)).1
      ∧ v1.eid
          = (spec_run (fer_gen env p.mode) p.start_frame p.number_of_frames
              (pass_state env q v)).2 := by
  obtain ⟨h0, hlt⟩ := main_checks_valid p q w hstart hchk
  obtain ⟨hm, hn, hs, -⟩ := main_checks_fields p q w hchk
  have hqm : q.mode ≠ Mode.R := by rw [hm]; exact hmode
  obtain ⟨v1, -, h2, -, -, -, hfile, hfb⟩ :=
    iteration_W_spec W hW (fun _ => true) (fun _ _ _ => rfl) env q hcount h0 hlt v
      (fun _ => hbuf)
  have hlen : q.number_of_frames - q.start_frame
      = p.number_of_frames - p.start_frame + 1 := by rw [hn, hs]; ring
  refine ⟨v1, h2, ?_, hfile, ?_, ?_⟩
  · intro hWe
    rw [← iteration_W_eq, ← hWe]
    exact h2
  · unfold pass_windows active_windows spec_run
    rw [symbols_of_append, symbols_of_skip_windows W hW, if_neg hqm, if_neg hqm,
      symbols_of_fer_windows _ W hW _ _ _ _ (Int.self_le_toNat _), hlen, hm, hs]
  · unfold spec_run
    rw [(hfb hqm).1, hlen, hm]

/-- C17 in mode 'F' at 20 frames from frame 4 with windows of 7 frames. -/
theorem windowed_frames_refine_source_witness :
    ∃ v1, iteration_W 7 (fun _ => true) sample_env (default_params Mode.F 20 3 (1 / 10))
        (initial_vars 0 empty_file) = .ok v1
      ∧ ((7 : Int) = EID_BUFFER_LENGTH
          → iteration sample_env (default_params Mode.F 20 3 (1 / 10))
              (initial_vars 0 empty_file) = .ok v1)
      ∧ v1.out_file_ptr
          = save_all sample_env
              (pass_windows sample_env 7 (default_params Mode.F 20 3 (1 / 10))
                (initial_vars 0 empty_file))
              (sample_env.fseek empty_file)
      ∧ symbols_of (pass_windows sample_env 7 (default_params Mode.F 20 3 (1 / 10))
            (initial_vars 0 empty_file))
          = (spec_run (fer_gen sample_env Mode.F) 4 20
              (pass_state sample_env (default_params Mode.F 20 3 (1 / 10))
                (initial_vars 0 empty_file))).1
      ∧ v1.eid
          = (spec_run (fer_gen sample_env Mode.F) 4 20
              (pass_state sample_env (default_params Mode.F 20 3 (1 / 10))
                (initial_vars 0 empty_file))).2 :=
  windowed_frames_refine_source sample_env
    (default_params Mode.F 20 4 (1 / 10)) (default_params Mode.F 20 3 (1 / 10)) false
    (by decide)
    (main_checks_plain (default_params Mode.F 20 4 (1 / 10)) (by decide) (by decide)
      (by decide) (by norm_num [default_params]) rfl)
    (by decide) 7 (by decide) (fun _ _ _ _ _ => rfl) (initial_vars 0 empty_file)
    (by show (7 : Int) ≤ ((List.replicate 256 (0 : Int)).length : Int)
        rw [List.length_replicate]; decide)

/-- C20. For every valid request and every pass entered with buffers of
`EID_BUFFER_LENGTH` entries, if every window write returns its count: the
pass with the assertion `1 <= k && k <= EID_BUFFER_LENGTH` on every window
length `k`, placed before the generator and the save function are called, in
the skip phase and in the active phase, ends normally and is the pass of
`main` (the assertion never fails), and every window for which the save
function is called has a length between 1 and `EID_BUFFER_LENGTH`. -/
theorem window_lengths_in_range {G F : Type} (env : Env G F)
    (hsave : SaveReturnsCount env) (p q : Params) (w : Bool) (hstart : 1 ≤ p.start_frame)
    (hchk : main_checks p = .ok (q, w)) (v : Vars G F)
    (hbuf : p.mode ≠ Mode.R → EID_BUFFER_LENGTH ≤ (v.error_pat.length : Int)) :
    ∃ v1, iteration_W EID_BUFFER_LENGTH
          (fun k => decide (1 ≤ k ∧ k ≤ EID_BUFFER_LENGTH)) env q v = .ok v1
      ∧ iteration env q v = .ok v1
      ∧ v1.out_file_ptr
          = save_all env (pass_windows env EID_BUFFER_LENGTH q v) (env.fseek v.out_file_ptr)
      ∧ (∀ win ∈ pass_windows env EID_BUFFER_LENGTH q v,
          1 ≤ win.2 ∧ win.2 ≤ EID_BUFFER_LENGTH)
      ∧ ((pass_windows env EID_BUFFER_LENGTH q v).map Prod.snd).sum = p.number_of_frames := by
  obtain ⟨h0, hlt⟩ := main_checks_valid p q w hstart hchk
  obtain ⟨hm, hn, hs, -⟩ := main_checks_fields p q w hchk
  obtain ⟨v1, h1, h2, -, -, -, hfile, -⟩ :=
    iteration_W_spec EID_BUFFER_LENGTH (by decide)
      (fun k => decide (1 ≤ k ∧ k ≤ EID_BUFFER_LENGTH))
      (fun k hk1 hk2 => decide_eq_true ⟨hk1, hk2⟩) env q hsave h0 hlt v
      (by rw [hm]; exact hbuf)
  rw [iteration_W_eq] at h2
  refine ⟨v1, h1, h2, hfile, ?_, ?_⟩
  · intro win hwin
    exact pass_windows_range env EID_BUFFER_LENGTH (by decide) q v win hwin
  · rw [pass_windows_sizes, List.sum_append,
      window_sizes_sum EID_BUFFER_LENGTH (by decide) _ _ (Int.self_le_toNat _),
      window_sizes_sum EID_BUFFER_LENGTH (by decide) _ _ (Int.self_le_toNat _), ← hn]
    omega

/-- C20 in mode 'F' at 600 frames from frame 300. -/
theorem window_lengths_in_range_witness :
    ∃ v1, iteration_W EID_BUFFER_LENGTH (fun k => decide (1 ≤ k ∧ k ≤ EID_BUFFER_LENGTH))
          sample_env (default_params Mode.F 600 299 (1 / 10)) (initial_vars 0 empty_file)
          = .ok v1
      ∧ iteration sample_env (default_params Mode.F 600 299 (1 / 10))
          (initial_vars 0 empty_file) = .ok v1
      ∧ v1.out_file_ptr
          = save_all sample_env
              (pass_windows sample_env EID_BUFFER_LENGTH
                (default_params Mode.F 600 299 (1 / 10)) (initial_vars 0 empty_file))
              (sample_env.fseek empty_file)
      ∧ (∀ win ∈ pass_windows sample_env EID_BUFFER_LENGTH
            (default_params Mode.F 600 299 (1 / 10)) (initial_vars 0 empty_file),
          1 ≤ win.2 ∧ win.2 ≤ EID_BUFFER_LENGTH)
      ∧ ((pass_windows sample_env EID_BUFFER_LENGTH
            (default_params Mode.F 600 299 (1 / 10)) (initial_vars 0 empty_file)).map
            Prod.snd).sum = 600 :=
  window_lengths_in_range sample_env sample_env_saves
    (default_params Mode.F 600 300 (1 / 10)) (default_params Mode.F 600 299 (1 / 10)) false
    (by decide)
    (main_checks_plain (default_params Mode.F 600 300 (1 / 10)) (by decide) (by decide)
      (by decide) (by norm_num [default_params]) rfl)
    (initial_vars 0 empty_file)
    (fun _ => by
      show EID_BUFFER_LENGTH ≤ ((List.replicate 256 (0 : Int)).length : Int)
      rw [List.length_replicate]; decide)

/-! ## The bytes of a pass in the output file -/

/-- Writing the windows one after the other from the write position
`pre.length` of a file that holds `pre` followed by older contents: the
bytes of the windows follow `pre` and replace as many older bytes. -/
theorem save_all_file_env {G : Type} (base : Env G SampleFile) (encode : List Int → List Int)
    (d : List Int) :
    ∀ (ws : List (List Int × Int)) (pre : List Int),
      save_all (file_env base encode) ws
          { data := pre ++ d.drop pre.length, pos := pre.length }
        = { data := (pre ++ bytes_of encode ws) ++ d.drop (pre ++ bytes_of encode ws).length,
            pos := (pre ++ bytes_of encode ws).length } := by
  intro ws
  induction ws with
  | nil => intro pre; simp only [save_all, List.foldl_nil, bytes_of, List.append_nil]
  | cons w ws ih =>
    intro pre
    have hstep : ((file_env base encode).save_data w.1 w.2
          { data := pre ++ d.drop pre.length, pos := pre.length }).1
        = { data := (pre ++ encode (w.1.take w.2.toNat))
                      ++ d.drop (pre ++ encode (w.1.take w.2.toNat)).length,
            pos := (pre ++ encode (w.1.take w.2.toNat)).length } := by
      show SampleFile.write _ _ = _
      unfold SampleFile.write
      simp only [List.take_left', List.length_append, List.drop_append, List.drop_drop,
        List.append_assoc]
    rw [save_all_cons, hstep, ih]
    simp only [bytes_of, List.append_assoc]

/-- After a rewind of a file that holds no more bytes than the windows
encode to, writing the windows leaves exactly their bytes in the file, with
the write position at the end. -/
theorem save_all_after_rewind {G : Type} (base : Env G SampleFile)
    (encode : List Int → List Int) (ws : List (List Int × Int)) (file : SampleFile)
    (hfit : file.data.length ≤ (bytes_of encode ws).length) :
    save_all (file_env base encode) ws ((file_env base encode).fseek file)
      = { data := bytes_of encode ws, pos := (bytes_of encode ws).length } := by
  have h := save_all_file_env base encode file.data ws []
  simp only [List.nil_append, List.length_nil, List.drop_zero] at h
  show save_all (file_env base encode) ws { data := file.data, pos := 0 } = _
  rw [h, List.drop_eq_nil_of_le hfit, List.append_nil]

/-- When every window holds at least as many entries as its length and `k`
symbols are encoded in `size k` bytes, the number of bytes of the windows
depends on their lengths only. -/
theorem bytes_of_length (encode : List Int → List Int) (size : Nat → Nat)
    (henc : ∀ xs : List Int, (encode xs).length = size xs.length) :
    ∀ ws : List (List Int × Int), (∀ w ∈ ws, w.2.toNat ≤ w.1.length) →
      (bytes_of encode ws).length = ((ws.map Prod.snd).map (fun k => size k.toNat)).sum := by
  intro ws
  induction ws with
  | nil => intro _; rfl
  | cons w ws ih =>
    intro h
    have hw := h w (List.mem_cons_self _ _)
    simp only [bytes_of, List.length_append, henc, List.length_take, List.map_cons,
      List.sum_cons, ih (fun x hx => h x (List.mem_cons_of_mem _ hx)), min_eq_left hw]

theorem fer_windows_fit {G : Type} (gen : G → G × Int) (W : Int) (hW : 1 ≤ W) :
    ∀ (fuel : Nat) (m : Int) (state : G) (patt : List Int), W ≤ (patt.length : Int) →
      ∀ w ∈ fer_windows gen W fuel m state patt, w.2.toNat ≤ w.1.length := by
  intro fuel
  induction fuel with
  | zero => intro m state patt _ w hw; simp [fer_windows] at hw
  | succ f ih =>
    intro m state patt hbuf w hw
    by_cases hpos : 0 < m
    · have hlen : (draw_codes gen (min m W).toNat state
          ++ patt.drop (min m W).toNat).length = patt.length := by
        rw [List.length_append, draw_codes_length, List.length_drop]
        omega
      simp only [fer_windows, if_pos hpos, List.mem_cons] at hw
      rcases hw with rfl | hw
      · show (min m W).toNat ≤ _
        rw [hlen]; omega
      · exact ih _ _ _ (by rw [hlen]; exact hbuf) w hw
    · simp [fer_windows, if_neg hpos] at hw

theorem ber_windows_fit {G F : Type} (env : Env G F) (W : Int) (hW : 1 ≤ W)
    (hber : ∀ (state : G) (k : Int) (patt : List Int), k ≤ (patt.length : Int) →
      (env.BER_generator state k patt).2.1.length = patt.length) :
    ∀ (fuel : Nat) (m : Int) (state : G) (patt : List Int), W ≤ (patt.length : Int) →
      ∀ w ∈ ber_windows env W fuel m state patt, w.2.toNat ≤ w.1.length := by
  intro fuel
  induction fuel with
  | zero => intro m state patt _ w hw; simp [ber_windows] at hw
  | succ f ih =>
    intro m state patt hbuf w hw
    by_cases hpos : 0 < m
    · simp only [ber_windows, if_pos hpos, List.mem_cons] at hw
      rcases hw with rfl | hw
      · show (min m W).toNat ≤ _
        rw [hber _ _ _ (by omega)]; omega
      · exact ih _ _ _ (by rw [hber _ _ _ (by omega)]; exact hbuf) w hw
    · simp [ber_windows, if_neg hpos] at hw

/-- Every window of a pass holds at least as many entries as its length,
when `BER_generator` keeps the length of the buffer and, in modes 'F' and
'B', the buffer has at least `W` entries. -/
theorem pass_windows_fit {G F : Type} (env : Env G F) (W : Int) (hW : 1 ≤ W)
    (hber : ∀ (state : G) (k : Int) (patt : List Int), k ≤ (patt.length : Int) →
      (env.BER_generator state k patt).2.1.length = patt.length)
    (p : Params) (v : Vars G F) (hbuf : p.mode ≠ Mode.R → W ≤ (v.error_pat.length : Int)) :
    ∀ w ∈ pass_windows env W p v, w.2.toNat ≤ w.1.length := by
  intro w hw
  unfold pass_windows at hw
  rw [List.mem_append] at hw
  rcases hw with hw | hw
  · unfold skip_windows at hw
    rw [List.mem_map] at hw
    obtain ⟨k, hk, rfl⟩ := hw
    have hr := mem_window_sizes W hW _ _ _ hk
    show k.toNat ≤ (frame_okay_W W p.mode).length
    unfold frame_okay_W
    rw [List.length_replicate]
    omega
  · unfold active_windows at hw
    split_ifs at hw with hm
    · refine ber_windows_fit env W hW hber _ _ _ _ ?_ w hw
      unfold frame_okay_W
      rw [List.length_replicate]
      omega
    · exact fer_windows_fit _ W hW _ _ _ _ (hbuf hm) w hw

/-- The windows of a pass encode to `pass_bytes` bytes, whatever the
symbols. -/
theorem pass_windows_bytes {G F : Type} (env : Env G F)
    (hber : ∀ (state : G) (k : Int) (patt : List Int), k ≤ (patt.length : Int) →
      (env.BER_generator state k patt).2.1.length = patt.length)
    (encode : List Int → List Int) (size : Nat → Nat)
    (henc : ∀ xs : List Int, (encode xs).length = size xs.length)
    (p : Params) (v : Vars G F)
    (hbuf : p.mode ≠ Mode.R → EID_BUFFER_LENGTH ≤ (v.error_pat.length : Int)) :
    (bytes_of encode (pass_windows env EID_BUFFER_LENGTH p v)).length = pass_bytes size p := by
  rw [bytes_of_length encode size henc _
    (pass_windows_fit env EID_BUFFER_LENGTH (by decide) hber p v hbuf), pass_windows_sizes]
  rfl

/-! ## The output file over the passes of the convergence loop -/

/-- One pass of the convergence loop on the output file of `file_env`,
entered with a file of at most `pass_bytes` bytes: it ends normally and
leaves in the file exactly the bytes of its own windows, `pass_bytes` of
them, with the write position at the end. -/
theorem file_env_pass {G : Type} (base : Env G SampleFile) (encode : List Int → List Int)
    (size : Nat → Nat) (henc : ∀ xs : List Int, (encode xs).length = size xs.length)
    (hber : ∀ (state : G) (k : Int) (patt : List Int), k ≤ (patt.length : Int) →
      (base.BER_generator state k patt).2.1.length = patt.length)
    (q : Params) (h0 : 0 ≤ q.start_frame) (hlt : q.start_frame < q.number_of_frames)
    (u : Vars G SampleFile) (hfile : u.out_file_ptr.data.length ≤ pass_bytes size q)
    (hbuf : q.mode ≠ Mode.R → EID_BUFFER_LENGTH ≤ (u.error_pat.length : Int)) :
    ∃ v1, iteration (file_env base encode) q u = .ok v1
      ∧ v1.iteraction = u.iteraction + 1
      ∧ v1.out_file_ptr
          = { data := bytes_of encode
                (pass_windows (file_env base encode) EID_BUFFER_LENGTH q u),
              pos := pass_bytes size q }
      ∧ (bytes_of encode (pass_windows (file_env base encode) EID_BUFFER_LENGTH q u)).length
          = pass_bytes size q
      ∧ (q.mode ≠ Mode.R → EID_BUFFER_LENGTH ≤ (v1.error_pat.length : Int)) := by
  have hB := pass_windows_bytes (file_env base encode) hber encode size henc q u hbuf
  obtain ⟨v1, -, h2, -, -, hit, hfile1, hfb⟩ :=
    iteration_W_spec EID_BUFFER_LENGTH (by decide) (fun _ => true) (fun _ _ _ => rfl)
      (file_env base encode) q (fun _ _ _ _ _ => rfl) h0 hlt u hbuf
  rw [iteration_W_eq] at h2
  refine ⟨v1, h2, hit, ?_, hB, ?_⟩
  · rw [hfile1, save_all_after_rewind base encode _ _ (by rw [hB]; exact hfile), hB]
  · intro hm
    rw [(hfb hm).2.1]
    exact hbuf hm

/-- A pass appended to `n` passes gives `n + 1` passes. -/
theorem passes_snoc {G F : Type} (env : Env G F) (p : Params) :
    ∀ (n : Nat) (v u v1 : Vars G F), passes env p n v = .ok u → iteration env p u = .ok v1 →
      passes env p (n + 1) v = .ok v1 := by
  intro n
  induction n with
  | zero =>
    intro v u v1 hu hv1
    simp only [passes] at hu
    cases hu
    simp only [passes, hv1]
  | succ k ih =>
    intro v u v1 hu hv1
    simp only [passes] at hu
    cases hit : iteration env p v with
    | error e => rw [hit] at hu; cases hu
    | ok v2 =>
      rw [hit] at hu
      have h := ih v2 u v1 hu hv1
      rw [passes, hit]
      exact h

/-- A property that every pass establishes again holds after any number of
passes. -/
theorem passes_invariant {G F : Type} (env : Env G F) (p : Params) (Inv : Vars G F → Prop)
    (hstep : ∀ v, Inv v → ∃ v1, iteration env p v = .ok v1
      ∧ v1.iteraction = v.iteraction + 1 ∧ Inv v1) :
    ∀ (n : Nat) (v u : Vars G F), Inv v → passes env p n v = .ok u → Inv u := by
  intro n
  induction n with
  | zero =>
    intro v u hv hu
    simp only [passes] at hu
    cases hu
    exact hv
  | succ k ih =>
    intro v u hv hu
    obtain ⟨v1, hv1, -, hinv1⟩ := hstep v hv
    simp only [passes, hv1] at hu
    exact ih v1 u hinv1 hu

/-- The `do` loop under a property that every pass establishes again: the
loop ends normally, and its result is the result of a pass entered with the
property. -/
theorem do_while_invariant {G F : Type} (env : Env G F) (p : Params) (Inv : Vars G F → Prop)
    (hstep : ∀ v, Inv v → ∃ v1, iteration env p v = .ok v1
      ∧ v1.iteraction = v.iteraction + 1 ∧ Inv v1) :
    ∀ (fuel : Nat) (v : Vars G F), 1 ≤ fuel → p.max_iteraction - v.iteraction ≤ (fuel : Int) →
      Inv v → ∃ v1 u, do_while env p fuel v = .ok v1 ∧ Inv u ∧ iteration env p u = .ok v1 := by
  intro fuel
  induction fuel with
  | zero => intro v h1; omega
  | succ f ih =>
    intro v _ hf hv
    obtain ⟨v1, hv1, hit1, hinv1⟩ := hstep v hv
    simp only [do_while, hv1]
    by_cases hagain : loop_again p v1 = true
    · rw [if_pos hagain]
      have hlt1 : v1.iteraction < p.max_iteraction := by
        unfold loop_again at hagain
        simp only [Bool.and_eq_true, decide_eq_true_eq] at hagain
        exact hagain.2
      exact ih v1 (by push_cast at hf; omega) (by push_cast at hf; omega) hinv1
    · rw [if_neg hagain]
      exact ⟨v1, v, rfl, hv, hv1⟩

theorem sample_env_ber_length (state : Nat) (k : Int) (patt : List Int)
    (hk : k ≤ (patt.length : Int)) :
    (sample_env.BER_generator state k patt).2.1.length = patt.length := by
  show (List.replicate k.toNat G192_ZERO ++ patt.drop k.toNat).length = patt.length
  rw [List.length_append, List.length_replicate, List.length_drop]
  omega

/-! ## The claim on the output file -/

/-- C18. For every valid request, on the output file of `file_env` (opened
empty, rewound without truncation by `fseek`, written at the write position
through an encoder that turns `k` symbols into `size k` bytes) and with a
`BER_generator` that keeps the length of the buffer: the convergence loop
ends normally; its result is the result of the pass entered after some `n`
earlier passes; the file then holds exactly the bytes that this last pass
wrote for its windows, with the write position at the end of the file, so
nothing of an earlier pass is left; and the pass entered after any number of
passes writes the same number `pass_bytes` of bytes. -/
theorem last_pass_overwrites_file {G : Type} (base : Env G SampleFile)
    (encode : List Int → List Int) (size : Nat → Nat)
    (henc : ∀ xs : List Int, (encode xs).length = size xs.length)
    (hber : ∀ (state : G) (k : Int) (patt : List Int), k ≤ (patt.length : Int) →
      (base.BER_generator state k patt).2.1.length = patt.length)
    (p q : Params) (w : Bool) (hstart : 1 ≤ p.start_frame)
    (hchk : main_checks p = .ok (q, w)) (eid : G) :
    ∃ (v1 u : Vars G SampleFile) (n : Nat),
      convergence (file_env base encode) q eid empty_file = .ok v1
      ∧ passes (file_env base encode) q n (initial_vars eid empty_file) = .ok u
      ∧ iteration (file_env base encode) q u = .ok v1
      ∧ v1.out_file_ptr.data
          = bytes_of encode (pass_windows (file_env base encode) EID_BUFFER_LENGTH q u)
      ∧ v1.out_file_ptr.pos = v1.out_file_ptr.data.length
      ∧ ∀ (m : Nat) (u1 : Vars G SampleFile),
          passes (file_env base encode) q m (initial_vars eid empty_file) = .ok u1 →
          ∃ v2, iteration (file_env base encode) q u1 = .ok v2
            ∧ v2.out_file_ptr.data
                = bytes_of encode (pass_windows (file_env base encode) EID_BUFFER_LENGTH q u1)
            ∧ v2.out_file_ptr.data.length = pass_bytes size q := by
  obtain ⟨h0, hlt⟩ := main_checks_valid p q w hstart hchk
  have hinit : (initial_vars eid empty_file).out_file_ptr.data.length ≤ pass_bytes size q
      ∧ (q.mode ≠ Mode.R →
          EID_BUFFER_LENGTH ≤ ((initial_vars eid empty_file).error_pat.length : Int)) := by
    refine ⟨Nat.zero_le _, fun _ => ?_⟩
    show EID_BUFFER_LENGTH ≤ ((List.replicate 256 (0 : Int)).length : Int)
    rw [List.length_replicate]; decide
  have hstep2 : ∀ v : Vars G SampleFile,
      (v.out_file_ptr.data.length ≤ pass_bytes size q
        ∧ (q.mode ≠ Mode.R → EID_BUFFER_LENGTH ≤ (v.error_pat.length : Int))) →
      ∃ v1, iteration (file_env base encode) q v = .ok v1
        ∧ v1.iteraction = v.iteraction + 1
        ∧ (v1.out_file_ptr.data.length ≤ pass_bytes size q
          ∧ (q.mode ≠ Mode.R → EID_BUFFER_LENGTH ≤ (v1.error_pat.length : Int))) := by
    intro v hv
    obtain ⟨v1, hv1, hit1, hf1, hB1, hb1⟩ :=
      file_env_pass base encode size henc hber q h0 hlt v hv.1 hv.2
    refine ⟨v1, hv1, hit1, ?_, hb1⟩
    rw [hf1]
    exact le_of_eq hB1
  have hstep : ∀ v : Vars G SampleFile,
      ((∃ n, passes (file_env base encode) q n (initial_vars eid empty_file) = .ok v)
        ∧ v.out_file_ptr.data.length ≤ pass_bytes size q
        ∧ (q.mode ≠ Mode.R → EID_BUFFER_LENGTH ≤ (v.error_pat.length : Int))) →
      ∃ v1, iteration (file_env base encode) q v = .ok v1
        ∧ v1.iteraction = v.iteraction + 1
        ∧ ((∃ n, passes (file_env base encode) q n (initial_vars eid empty_file) = .ok v1)
          ∧ v1.out_file_ptr.data.length ≤ pass_bytes size q
          ∧ (q.mode ≠ Mode.R → EID_BUFFER_LENGTH ≤ (v1.error_pat.length : Int))) := by
    intro v hv
    obtain ⟨⟨n, hn⟩, hv2⟩ := hv
    obtain ⟨v1, hv1, hit1, hinv1⟩ := hstep2 v hv2
    exact ⟨v1, hv1, hit1, ⟨n + 1, passes_snoc _ q n _ v v1 hn hv1⟩, hinv1⟩
  obtain ⟨v1, u, hdo, ⟨⟨n, hn⟩, hfu, hbu⟩, hlast⟩ :=
    do_while_invariant (file_env base encode) q _ hstep (max q.max_iteraction 1).toNat
      (initial_vars eid empty_file) (by omega)
      (by show q.max_iteraction - 0 ≤ _; omega) ⟨⟨0, rfl⟩, hinit⟩
  obtain ⟨v1', hv1', -, hf1, hB1, -⟩ :=
    file_env_pass base encode size henc hber q h0 hlt u hfu hbu
  have hv : v1' = v1 := by
    rw [hlast] at hv1'
    injection hv1' with h
    exact h.symm
  subst hv
  refine ⟨v1', u, n, hdo, hn, hlast, ?_, ?_, ?_⟩
  · rw [hf1]
  · rw [hf1]; exact hB1.symm
  · intro m u1 hu1
    have hinv := passes_invariant (file_env base encode) q _ hstep2 m _ u1 hinit hu1
    obtain ⟨v2, hv2, -, hf2, hB2, -⟩ :=
      file_env_pass base encode size henc hber q h0 hlt u1 hinv.1 hinv.2
    refine ⟨v2, hv2, ?_, ?_⟩
    · rw [hf2]
    · rw [hf2]; exact hB2

/-- C18 at 3 frames from frame 1 in mode 'F' at rate 0.5 with `-tol 0`, one
code per symbol. -/
theorem last_pass_overwrites_file_witness :
    ∃ (v1 u : Vars Nat SampleFile) (n : Nat),
      convergence (file_env sample_env (fun xs => xs)) three_frames_checked 0 empty_file
        = .ok v1
      ∧ passes (file_env sample_env (fun xs => xs)) three_frames_checked n
          (initial_vars 0 empty_file) = .ok u
      ∧ iteration (file_env sample_env (fun xs => xs)) three_frames_checked u = .ok v1
      ∧ v1.out_file_ptr.data
          = bytes_of (fun xs => xs)
              (pass_windows (file_env sample_env (fun xs => xs)) EID_BUFFER_LENGTH
                three_frames_checked u)
      ∧ v1.out_file_ptr.pos = v1.out_file_ptr.data.length
      ∧ ∀ (m : Nat) (u1 : Vars Nat SampleFile),
          passes (file_env sample_env (fun xs => xs)) three_frames_checked m
            (initial_vars 0 empty_file) = .ok u1 →
          ∃ v2, iteration (file_env sample_env (fun xs => xs)) three_frames_checked u1 = .ok v2
            ∧ v2.out_file_ptr.data
                = bytes_of (fun xs => xs)
                    (pass_windows (file_env sample_env (fun xs => xs)) EID_BUFFER_LENGTH
                      three_frames_checked u1)
            ∧ v2.out_file_ptr.data.length = pass_bytes (fun k => k) three_frames_checked :=
  last_pass_overwrites_file sample_env (fun xs => xs) (fun k => k) (fun _ => rfl)
    sample_env_ber_length three_frames_request three_frames_checked false (by decide)
    main_checks_three_frames 0

end GenPatt
